import Mathlib

/-!
Verification development for the `cauth` credential-profile manager
(`src/cauth/src/main.rs`).  The Rust source is shallowly embedded: JSON
values become an inductive type with rational numbers (serde_json numbers
are modelled as exact rationals; IEEE rounding of `f64` is not modelled,
theorems quantify over the post-parse value), credential byte blobs become
`String`s parsed by an executable JSON parser, the file system becomes an
association list from paths to contents, and the keychain plus external
clients become explicit state and function parameters.  Unicode-aware
Rust string operations (`to_lowercase`, `trim`) are modelled at ASCII
level, which is exact on every input the claims and witnesses touch.
-/

/-- Model of `serde_json::Value`.  Objects are association lists in
insertion order; `serde_json`'s `Map` iteration order is not relied on by
any theorem below. -/
inductive Json where
  | null
  | bool (b : Bool)
  | num (q : ℚ)
  | str (s : String)
  | arr (items : List Json)
  | obj (fields : List (String × Json))
deriving Inhabited

/-- Key lookup inside an object field list (model of `Map::get`). -/
def lookupField : List (String × Json) → String → Option Json
  | [], _ => none
  | (k, v) :: rest, key => if k = key then some v else lookupField rest key

/-- Model of `Value::get(key)`: `none` on non-objects. -/
def Json.getKey : Json → String → Option Json
  | .obj fields, key => lookupField fields key
  | _, _ => none

/-- Whether the value is a JSON object (model of `Value::is_object`). -/
def Json.isObj : Json → Bool
  | .obj _ => true
  | _ => false

/-- Object fields, when the value is an object (model of `Value::as_object`). -/
def Json.asObj : Json → Option (List (String × Json))
  | .obj fields => some fields
  | _ => none

/-- Insert with replacement (model of `serde_json::Map::insert`; the first
occurrence keeps its position, which no theorem depends on). -/
def insertField : List (String × Json) → String → Json → List (String × Json)
  | [], key, v => [(key, v)]
  | (k, w) :: rest, key, v =>
      if k = key then (key, v) :: rest else (k, w) :: insertField rest key v

/-- Whitespace skipping for the JSON grammar. -/
def skipWs : List Char → List Char
  | [] => []
  | c :: rest =>
      if c = ' ' ∨ c = '\n' ∨ c = '\t' ∨ c = '\r' then skipWs rest else c :: rest

/-- Hexadecimal digit value. -/
def hexVal (c : Char) : Option Nat :=
  if '0' ≤ c ∧ c ≤ '9' then some (c.toNat - '0'.toNat)
  else if 'a' ≤ c ∧ c ≤ 'f' then some (c.toNat - 'a'.toNat + 10)
  else if 'A' ≤ c ∧ c ≤ 'F' then some (c.toNat - 'A'.toNat + 10)
  else none

/-- Numeric value of a list of decimal digits. -/
def natOfDigits (l : List Char) : Nat :=
  l.foldl (fun acc c => acc * 10 + (c.toNat - '0'.toNat)) 0

/-- JSON string body scanner: consumes characters until the closing quote,
decoding escape sequences (including `\uXXXX` with surrogate pairs). -/
def pStringAux : List Char → List Char → Option (String × List Char)
  | [], _ => none
  | '"' :: rest, acc => some (String.mk acc.reverse, rest)
  | '\\' :: esc, acc =>
      match esc with
      | '"' :: r => pStringAux r ('"' :: acc)
      | '\\' :: r => pStringAux r ('\\' :: acc)
      | '/' :: r => pStringAux r ('/' :: acc)
      | 'b' :: r => pStringAux r ('\x08' :: acc)
      | 'f' :: r => pStringAux r ('\x0c' :: acc)
      | 'n' :: r => pStringAux r ('\n' :: acc)
      | 'r' :: r => pStringAux r ('\x0d' :: acc)
      | 't' :: r => pStringAux r ('\t' :: acc)
      | 'u' :: a :: b :: c :: d :: r =>
          match hexVal a, hexVal b, hexVal c, hexVal d with
          | some ha, some hb, some hc, some hd =>
              let code := ((ha * 16 + hb) * 16 + hc) * 16 + hd
              if 0xD800 ≤ code ∧ code < 0xDC00 then
                match r with
                | '\\' :: 'u' :: e :: f :: g :: h :: r2 =>
                    match hexVal e, hexVal f, hexVal g, hexVal h with
                    | some he, some hf, some hg, some hh =>
                        let low := ((he * 16 + hf) * 16 + hg) * 16 + hh
                        if 0xDC00 ≤ low ∧ low < 0xE000 then
                          let cp := 0x10000 + (code - 0xD800) * 0x400 + (low - 0xDC00)
                          pStringAux r2 (Char.ofNat cp :: acc)
                        else none
                    | _, _, _, _ => none
                | _ => none
              else if 0xDC00 ≤ code ∧ code < 0xE000 then none
              else pStringAux r (Char.ofNat code :: acc)
          | _, _, _, _ => none
      | _ => none
  | c :: rest, acc => pStringAux rest (c :: acc)

/-- JSON number scanner, producing the exact rational value. -/
def pNumber (l : List Char) : Option (ℚ × List Char) :=
  let signed : Bool × List Char :=
    match l with
    | '-' :: rest => (true, rest)
    | _ => (false, l)
  let (neg, l1) := signed
  let (ds, l2) := l1.span (fun c => c.isDigit)
  if ds.isEmpty then none
  else
    let intPart : ℚ := (natOfDigits ds : ℚ)
    let fracStep : Option (ℚ × List Char) :=
      match l2 with
      | '.' :: rest =>
          let (fs, r) := rest.span (fun c => c.isDigit)
          if fs.isEmpty then none
          else some (intPart + (natOfDigits fs : ℚ) / ((10 : ℚ) ^ fs.length), r)
      | _ => some (intPart, l2)
    match fracStep with
    | none => none
    | some (mantissa, l3) =>
        let expStep : Option (ℚ × List Char) :=
          match l3 with
          | 'e' :: rest => some (1, rest)
          | 'E' :: rest => some (1, rest)
          | _ => none
        match expStep with
        | none => some ((if neg then -mantissa else mantissa), l3)
        | some (_, l4) =>
            let esigned : Bool × List Char :=
              match l4 with
              | '-' :: rest => (true, rest)
              | '+' :: rest => (false, rest)
              | _ => (false, l4)
            let (eneg, l5) := esigned
            let (es, l6) := l5.span (fun c => c.isDigit)
            if es.isEmpty then none
            else
              let e := natOfDigits es
              let scaled :=
                if eneg then mantissa / ((10 : ℚ) ^ e) else mantissa * ((10 : ℚ) ^ e)
              some ((if neg then -scaled else scaled), l6)

mutual

/-- JSON value parser with explicit fuel (model of `serde_json::from_slice`
at the value level). -/
def pVal : Nat → List Char → Option (Json × List Char)
  | 0, _ => none
  | Nat.succ fuel, input =>
      match skipWs input with
      | 'n' :: 'u' :: 'l' :: 'l' :: rest => some (.null, rest)
      | 't' :: 'r' :: 'u' :: 'e' :: rest => some (.bool true, rest)
      | 'f' :: 'a' :: 'l' :: 's' :: 'e' :: rest => some (.bool false, rest)
      | '"' :: rest =>
          match pStringAux rest [] with
          | some (s, r) => some (.str s, r)
          | none => none
      | '[' :: rest =>
          match skipWs rest with
          | ']' :: r2 => some (.arr [], r2)
          | r2 => pItems fuel r2 []
      | '\x7b' :: rest =>
          match skipWs rest with
          | '\x7d' :: r2 => some (.obj [], r2)
          | r2 => pMembers fuel r2 []
      | rest =>
          match pNumber rest with
          | some (q, r) => some (.num q, r)
          | none => none

/-- Array items loop. -/
def pItems : Nat → List Char → List Json → Option (Json × List Char)
  | 0, _, _ => none
  | Nat.succ fuel, input, acc =>
      match pVal fuel input with
      | none => none
      | some (v, rest) =>
          match skipWs rest with
          | ',' :: r2 => pItems fuel r2 (acc ++ [v])
          | ']' :: r2 => some (.arr (acc ++ [v]), r2)
          | _ => none

/-- Object members loop (duplicate keys follow `Map::insert` semantics). -/
def pMembers : Nat → List Char → List (String × Json) → Option (Json × List Char)
  | 0, _, _ => none
  | Nat.succ fuel, input, acc =>
      match skipWs input with
      | '"' :: rest =>
          match pStringAux rest [] with
          | none => none
          | some (key, r1) =>
              match skipWs r1 with
              | ':' :: r2 =>
                  match pVal fuel r2 with
                  | none => none
                  | some (v, r3) =>
                      match skipWs r3 with
                      | ',' :: r4 => pMembers fuel r4 (insertField acc key v)
                      | '\x7d' :: r4 => some (.obj (insertField acc key v), r4)
                      | _ => none
              | _ => none
      | _ => none

end

/-- Parse a whole byte blob as JSON (model of `serde_json::from_slice::<Value>`). -/
def parseJson (s : String) : Option Json :=
  match pVal (s.length + 1) s.data with
  | some (v, rest) => if (skipWs rest).isEmpty then some v else none
  | none => none

/-- ASCII-level model of Rust `str::to_lowercase` (the credentials flow
only meets ASCII data; `Char.toLower` lowers exactly the ASCII letters). -/
def toLowerStr (s : String) : String :=
  String.mk (s.data.map Char.toLower)

/-- Boolean list-level starts-with test. -/
def listIsPre (pat s : List Char) : Bool :=
  match pat, s with
  | [], _ => true
  | a :: tailPat, b :: tailS => a = b && listIsPre tailPat tailS
  | _, _ => false

/-- Boolean list-level substring occurrence test. -/
def listHasInfix (pat : List Char) : List Char → Bool
  | [] => listIsPre pat []
  | c :: rest => listIsPre pat (c :: rest) || listHasInfix pat rest

/-- Substring containment (model of Rust `str::contains(&str)`). -/
def strContains (hay pat : String) : Bool :=
  listHasInfix pat.data hay.data

/-- Model of `str::trim` (ASCII whitespace level). -/
def trimStr (s : String) : String :=
  String.mk ((s.data.dropWhile Char.isWhitespace).reverse.dropWhile Char.isWhitespace).reverse

/-- Model of `str::split_once(ch)`: split at the first occurrence. -/
def splitOnceCharAux (ch : Char) : List Char → Option (List Char × List Char)
  | [] => none
  | c :: rest =>
      if c = ch then some ([], rest)
      else
        match splitOnceCharAux ch rest with
        | some (l, r) => some (c :: l, r)
        | none => none

/-- Model of `str::split_once(ch)` on strings. -/
def splitOnceChar (s : String) (ch : Char) : Option (String × String) :=
  match splitOnceCharAux ch s.data with
  | some (l, r) => some (String.mk l, String.mk r)
  | none => none

/-- Model of `str::strip_prefix`. -/
def stripPre (s pre : String) : Option String :=
  if listIsPre pre.data s.data then some (String.mk (s.data.drop pre.data.length))
  else none

/-- Model of `str::replace(a, b)` for single characters. -/
def replaceChar (s : String) (a b : Char) : String :=
  String.mk (s.data.map (fun c => if c = a then b else c))

/-- UTF-8 encoding of one character (model of Rust `str::as_bytes`). -/
def utf8Char (c : Char) : List Nat :=
  let n := c.toNat
  if n < 0x80 then [n]
  else if n < 0x800 then [0xC0 + n / 64, 0x80 + n % 64]
  else if n < 0x10000 then [0xE0 + n / 4096, 0x80 + n / 64 % 64, 0x80 + n % 64]
  else [0xF0 + n / 262144, 0x80 + n / 4096 % 64, 0x80 + n / 64 % 64, 0x80 + n % 64]

/-- UTF-8 bytes of a string. -/
def strBytes (s : String) : List Nat :=
  (s.data.map utf8Char).flatten

/-- Decode UTF-8 bytes back to a string; `none` on malformed input
(model of `std::str::from_utf8` / `String::from_utf8`). -/
def utf8Decode : List Nat → Option (List Char)
  | [] => some []
  | b :: rest =>
      if b < 0x80 then
        match utf8Decode rest with
        | some cs => some (Char.ofNat b :: cs)
        | none => none
      else if 0xC0 ≤ b ∧ b < 0xE0 then
        match rest with
        | b2 :: r2 =>
            if 0x80 ≤ b2 ∧ b2 < 0xC0 then
              let cp := (b - 0xC0) * 64 + (b2 - 0x80)
              if cp < 0x80 then none
              else
                match utf8Decode r2 with
                | some cs => some (Char.ofNat cp :: cs)
                | none => none
            else none
        | _ => none
      else if 0xE0 ≤ b ∧ b < 0xF0 then
        match rest with
        | b2 :: b3 :: r2 =>
            if (0x80 ≤ b2 ∧ b2 < 0xC0) ∧ (0x80 ≤ b3 ∧ b3 < 0xC0) then
              let cp := (b - 0xE0) * 4096 + (b2 - 0x80) * 64 + (b3 - 0x80)
              if cp < 0x800 ∨ (0xD800 ≤ cp ∧ cp < 0xE000) then none
              else
                match utf8Decode r2 with
                | some cs => some (Char.ofNat cp :: cs)
                | none => none
            else none
        | _ => none
      else if 0xF0 ≤ b ∧ b < 0xF5 then
        match rest with
        | b2 :: b3 :: b4 :: r2 =>
            if (0x80 ≤ b2 ∧ b2 < 0xC0) ∧ (0x80 ≤ b3 ∧ b3 < 0xC0) ∧ (0x80 ≤ b4 ∧ b4 < 0xC0) then
              let cp := (b - 0xF0) * 262144 + (b2 - 0x80) * 4096 + (b3 - 0x80) * 64 + (b4 - 0x80)
              if cp < 0x10000 ∨ 0x110000 ≤ cp then none
              else
                match utf8Decode r2 with
                | some cs => some (Char.ofNat cp :: cs)
                | none => none
            else none
        | _ => none
      else none

/-- SHA-256 round constants. -/
def sha256K : List Nat :=
  [1116352408, 1899447441, 3049323471, 3921009573,
   961987163, 1508970993, 2453635748, 2870763221,
   3624381080, 310598401, 607225278, 1426881987,
   1925078388, 2162078206, 2614888103, 3248222580,
   3835390401, 4022224774, 264347078, 604807628,
   770255983, 1249150122, 1555081692, 1996064986,
   2554220882, 2821834349, 2952996808, 3210313671,
   3336571891, 3584528711, 113926993, 338241895,
   666307205, 773529912, 1294757372, 1396182291,
   1695183700, 1986661051, 2177026350, 2456956037,
   2730485921, 2820302411, 3259730800, 3345764771,
   3516065817, 3600352804, 4094571909, 275423344,
   430227734, 506948616, 659060556, 883997877,
   958139571, 1322822218, 1537002063, 1747873779,
   1955562222, 2024104815, 2227730452, 2361852424,
   2428436474, 2756734187, 3204031479, 3329325298]

/-- Word arithmetic modulo 2^32. -/
def w32 (n : Nat) : Nat := n % 4294967296

/-- Right rotation of a 32-bit word. -/
def rotr32 (n x : Nat) : Nat :=
  w32 ((x >>> n) ||| (x <<< (32 - n)))

/-- SHA-256 message padding to 512-bit blocks. -/
def sha256Pad (msg : List Nat) : List Nat :=
  let bitLen := msg.length * 8
  let zeroCount := (64 - (msg.length + 9) % 64) % 64
  msg ++ [0x80] ++ List.replicate zeroCount 0 ++
    [w32 (bitLen >>> 56) % 256, (bitLen >>> 48) % 256, (bitLen >>> 40) % 256,
     (bitLen >>> 32) % 256, (bitLen >>> 24) % 256, (bitLen >>> 16) % 256,
     (bitLen >>> 8) % 256, bitLen % 256]

/-- 32-bit big-endian words from bytes. -/
def bytesToWords : List Nat → List Nat
  | a :: b :: c :: d :: rest => (((a * 256 + b) * 256 + c) * 256 + d) :: bytesToWords rest
  | _ => []

/-- SHA-256 message schedule extension from 16 to 64 words. -/
def sha256Extend (ws : Array Nat) (i : Nat) : Array Nat :=
  if h : i < 64 then
    if i < 16 then sha256Extend ws (i + 1)
    else
      let w15 := ws.getD (i - 15) 0
      let w2 := ws.getD (i - 2) 0
      let s0 := (rotr32 7 w15) ^^^ (rotr32 18 w15) ^^^ (w15 >>> 3)
      let s1 := (rotr32 17 w2) ^^^ (rotr32 19 w2) ^^^ (w2 >>> 10)
      let wNew := w32 (ws.getD (i - 16) 0 + s0 + ws.getD (i - 7) 0 + s1)
      sha256Extend (ws.push wNew) (i + 1)
  else ws
termination_by 64 - i

/-- One SHA-256 compression round. -/
def sha256Round (ws : Array Nat) (st : List Nat) (i : Nat) : List Nat :=
  match st with
  | [a, b, c, d, e, f, g, h] =>
      let s1 := (rotr32 6 e) ^^^ (rotr32 11 e) ^^^ (rotr32 25 e)
      let ch := (e &&& f) ^^^ ((0xffffffff - e) &&& g)
      let temp1 := w32 (h + s1 + ch + sha256K.getD i 0 + ws.getD i 0)
      let s0 := (rotr32 2 a) ^^^ (rotr32 13 a) ^^^ (rotr32 22 a)
      let maj := (a &&& b) ^^^ (a &&& c) ^^^ (b &&& c)
      let temp2 := w32 (s0 + maj)
      [w32 (temp1 + temp2), a, b, c, w32 (d + temp1), e, f, g]
  | other => other

/-- Compress one 16-word block into the hash state. -/
def sha256Block (hsh : List Nat) (block : List Nat) : List Nat :=
  let ws := sha256Extend (Array.mk block) 0
  let st := (List.range 64).foldl (sha256Round ws) hsh
  (hsh.zip st).map (fun p => w32 (p.1 + p.2))

/-- Split padded bytes into 16-word blocks and fold the compression. -/
def sha256Blocks (hsh : List Nat) (ws : List Nat) : List Nat :=
  match ws with
  | [] => hsh
  | w :: rest => sha256Blocks (sha256Block hsh ((w :: rest).take 16)) (rest.drop 15)
termination_by ws.length
decreasing_by
  simp only [List.length_drop, List.length_cons]
  omega

/-- SHA-256 digest of a byte sequence, as 32 bytes. -/
def sha256 (msg : List Nat) : List Nat :=
  let init := [1779033703, 3144134277, 1013904242, 2773480762,
               1359893119, 2600822924, 528734635, 1541459225]
  let final := sha256Blocks init (bytesToWords (sha256Pad msg))
  final.foldr (fun word acc =>
    (word >>> 24) % 256 :: (word >>> 16) % 256 :: (word >>> 8) % 256 :: word % 256 :: acc) []

/-- Lowercase hexadecimal rendering of bytes (model of `hex::encode`). -/
def hexOfBytes (bytes : List Nat) : List Char :=
  let digit := fun n =>
    if n < 10 then Char.ofNat ('0'.toNat + n) else Char.ofNat ('a'.toNat + n - 10)
  bytes.foldr (fun b acc => digit (b / 16 % 16) :: digit (b % 16) :: acc) []

/-- Model of `short_hash_hex`: first 16 hex chars of SHA-256 of the bytes. -/
def short_hash_hex (data : String) : String :=
  String.mk ((hexOfBytes (sha256 (strBytes data))).take 16)

/-- Model of `token_fingerprint`. -/
def token_fingerprint (token : Option String) : Option String :=
  match token with
  | none => none
  | some t =>
      let raw := trimStr t
      if raw.isEmpty then none else some (short_hash_hex raw)

/-- Base64url alphabet value of one character. -/
def b64Val (c : Char) : Option Nat :=
  if 'A' ≤ c ∧ c ≤ 'Z' then some (c.toNat - 'A'.toNat)
  else if 'a' ≤ c ∧ c ≤ 'z' then some (c.toNat - 'a'.toNat + 26)
  else if '0' ≤ c ∧ c ≤ '9' then some (c.toNat - '0'.toNat + 52)
  else if c = '-' then some 62
  else if c = '_' then some 63
  else none

/-- Unpadded base64url decoding (model of `URL_SAFE_NO_PAD.decode`; trailing
bits must be zero, as the `base64` crate's default config demands). -/
def b64DecodeNoPad : List Char → Option (List Nat)
  | [] => some []
  | [a, b] =>
      match b64Val a, b64Val b with
      | some va, some vb =>
          if vb % 16 = 0 then some [va * 4 + vb / 16] else none
      | _, _ => none
  | [a, b, c] =>
      match b64Val a, b64Val b, b64Val c with
      | some va, some vb, some vc =>
          if vc % 4 = 0 then some [va * 4 + vb / 16, (vb % 16) * 16 + vc / 4] else none
      | _, _, _ => none
  | a :: b :: c :: d :: rest =>
      match b64Val a, b64Val b, b64Val c, b64Val d with
      | some va, some vb, some vc, some vd =>
          match b64DecodeNoPad rest with
          | some tail =>
              some ([va * 4 + vb / 16, (vb % 16) * 16 + vc / 4, (vc % 4) * 64 + vd] ++ tail)
          | none => none
      | _, _, _, _ => none
  | _ => none

/-- Padded base64url decoding (model of `URL_SAFE.decode`). -/
def b64DecodePadded (l : List Char) : Option (List Nat) :=
  if l.length % 4 ≠ 0 then none
  else
    match l.reverse with
    | '=' :: '=' :: _ => b64DecodeNoPad (l.take (l.length - 2))
    | '=' :: _ => b64DecodeNoPad (l.take (l.length - 1))
    | _ => b64DecodeNoPad l

/-- Typed string read of an optional JSON value (model of `value_as_string`):
trims whitespace and treats empty as absent. -/
def value_as_string (value : Option Json) : Option String :=
  match value with
  | some (.str raw) =>
      let trimmed := trimStr raw
      if trimmed.isEmpty then none else some trimmed
  | _ => none

/-- Nested object traversal (model of `get_path_value`). -/
def get_path_value : Json → List String → Option Json
  | root, [] => some root
  | root, key :: rest =>
      match root.getKey key with
      | some v => get_path_value v rest
      | none => none

/-- String read at a path (model of `get_path_string`). -/
def get_path_string (root : Json) (path : List String) : Option String :=
  value_as_string (get_path_value root path)

/-- Finite-value model of Rust `str::parse::<f64>()`.  Infinities and NaN
are mapped to `none`; the sole consumer (`parse_date_value` via
`date_from_timestamp`) sends non-finite values to an absent date anyway. -/
def parseF64 (s : String) : Option ℚ :=
  let signed : Bool × List Char :=
    match s.data with
    | '-' :: rest => (true, rest)
    | '+' :: rest => (false, rest)
    | _ => (false, s.data)
  let (neg, l1) := signed
  let (ds, l2) := l1.span (fun c => c.isDigit)
  let mantissaStep : Option (ℚ × List Char) :=
    match l2 with
    | '.' :: rest =>
        let (fs, l3) := rest.span (fun c => c.isDigit)
        if ds.isEmpty ∧ fs.isEmpty then none
        else some ((natOfDigits ds : ℚ) + (natOfDigits fs : ℚ) / ((10 : ℚ) ^ fs.length), l3)
    | _ => if ds.isEmpty then none else some ((natOfDigits ds : ℚ), l2)
  match mantissaStep with
  | none => none
  | some (mantissa, l3) =>
      let expStep : Option (ℚ × List Char) :=
        match l3 with
        | 'e' :: r => some (0, r)
        | 'E' :: r => some (0, r)
        | _ => none
      match expStep with
      | none => if l3.isEmpty then some (if neg then -mantissa else mantissa) else none
      | some (_, l4) =>
          let esigned : Bool × List Char :=
            match l4 with
            | '-' :: rest => (true, rest)
            | '+' :: rest => (false, rest)
            | _ => (false, l4)
          let (eneg, l5) := esigned
          let (es, l6) := l5.span (fun c => c.isDigit)
          if es.isEmpty ∨ ¬l6.isEmpty then none
          else
            let e := natOfDigits es
            let scaled :=
              if eneg then mantissa / ((10 : ℚ) ^ e) else mantissa * ((10 : ℚ) ^ e)
            some (if neg then -scaled else scaled)

/-- Typed numeric read (model of `value_as_f64`). -/
def value_as_f64 (value : Json) : Option ℚ :=
  match value with
  | .num q => some q
  | .str raw => parseF64 (trimStr raw)
  | _ => none

/-- Scope normalization from a raw string (model of `normalize_scope_string`). -/
def normalize_scope_string (raw : String) : List String :=
  ((raw.split (fun c => c = ' ')).map trimStr).filter (fun item => ¬item.isEmpty)

/-- Scope normalization from a JSON value (model of `normalize_scope_value`). -/
def normalize_scope_value (value : Json) : List String :=
  match value with
  | .arr list => list.filterMap (fun item => value_as_string (some item))
  | .str raw => normalize_scope_string raw
  | _ => []

/-- Truncated (toward-zero) integer division, as C and Rust divide. -/
def tdiv (a b : Int) : Int := Int.tdiv a b

/-- Days from 1970-01-01 for a civil date (Howard Hinnant's formula,
modelling chrono's calendar arithmetic). -/
def daysFromCivil (y m d : Int) : Int :=
  let yAdj := if m ≤ 2 then y - 1 else y
  let era := tdiv (if 0 ≤ yAdj then yAdj else yAdj - 399) 400
  let yoe := yAdj - era * 400
  let mp := if 2 < m then m - 3 else m + 9
  let doy := tdiv (153 * mp + 2) 5 + d - 1
  let doe := yoe * 365 + tdiv yoe 4 - tdiv yoe 100 + doy
  era * 146097 + doe - 719468

/-- Latest representable chrono timestamp in milliseconds
(`NaiveDate::MAX` is 262142-12-31). -/
def chronoMaxMs : Int := daysFromCivil 262142 12 31 * 86400000 + 86399999

/-- Earliest representable chrono timestamp in milliseconds
(`NaiveDate::MIN` is -262143-01-01). -/
def chronoMinMs : Int := daysFromCivil (-262143) 1 1 * 86400000

/-- Model of `DateTime::<Utc>::from_timestamp_millis`: in-range values give
the timestamp itself (dates are modelled as epoch milliseconds). -/
def from_timestamp_millis (ms : Int) : Option Int :=
  if chronoMinMs ≤ ms ∧ ms ≤ chronoMaxMs then some ms else none

/-- Half-away-from-zero rounding (model of `f64::round`). -/
def rustRound (q : ℚ) : Int :=
  if 0 ≤ q then Int.floor (q + 1 / 2) else -Int.floor (-q + 1 / 2)

/-- Model of `date_from_timestamp`: positive finite input, strictly above
1e12 taken as epoch milliseconds, strictly above 1e9 as epoch seconds,
otherwise absent.  (The `is_finite` guard is vacuous over `ℚ`.) -/
def date_from_timestamp (timestamp : ℚ) : Option Int :=
  if timestamp ≤ 0 then none
  else
    let milliseconds : Option ℚ :=
      if 1000000000000 < timestamp then some timestamp
      else if 1000000000 < timestamp then some (timestamp * 1000)
      else none
    match milliseconds with
    | some ms => from_timestamp_millis (rustRound ms)
    | none => none

/-- Decimal digit value of a character. -/
def digitVal (c : Char) : Nat := c.toNat - '0'.toNat

/-- RFC3339 timestamp to epoch milliseconds (model of
`DateTime::parse_from_rfc3339(...).with_timezone(&Utc)`; sub-millisecond
digits are truncated as `timestamp_millis` truncates). -/
def rfc3339ToMillis (s : String) : Option Int :=
  match s.data with
  | y1 :: y2 :: y3 :: y4 :: '-' :: m1 :: m2 :: '-' :: d1 :: d2 :: t ::
      h1 :: h2 :: ':' :: mi1 :: mi2 :: ':' :: s1 :: s2 :: rest =>
      if ¬([y1, y2, y3, y4, m1, m2, d1, d2, h1, h2, mi1, mi2, s1, s2].all Char.isDigit) then none
      else if ¬(t = 'T' ∨ t = 't' ∨ t = ' ') then none
      else
        let year : Int := (natOfDigits [y1, y2, y3, y4] : Int)
        let month : Int := (natOfDigits [m1, m2] : Int)
        let day : Int := (natOfDigits [d1, d2] : Int)
        let hour := natOfDigits [h1, h2]
        let minute := natOfDigits [mi1, mi2]
        let second := natOfDigits [s1, s2]
        let monthDays : Int :=
          if month = 2 then
            (if (year % 4 = 0 ∧ year % 100 ≠ 0) ∨ year % 400 = 0 then 29 else 28)
          else if month = 4 ∨ month = 6 ∨ month = 9 ∨ month = 11 then 30
          else 31
        if ¬(1 ≤ month ∧ month ≤ 12 ∧ 1 ≤ day ∧ day ≤ monthDays ∧
             hour ≤ 23 ∧ minute ≤ 59 ∧ second ≤ 60) then none
        else
          let fracStep : Option (Nat × List Char) :=
            match rest with
            | '.' :: fr =>
                let (fs, r2) := fr.span (fun c => c.isDigit)
                if fs.isEmpty then none
                else
                  let ds9 := fs.take 9
                  some (natOfDigits ds9 * 10 ^ (9 - ds9.length) / 1000000, r2)
            | _ => some (0, rest)
          match fracStep with
          | none => none
          | some (fracMs, r2) =>
              let offsetStep : Option Int :=
                match r2 with
                | ['Z'] => some 0
                | ['z'] => some 0
                | ['+', o1, o2, ':', o3, o4] =>
                    if [o1, o2, o3, o4].all Char.isDigit then
                      some ((natOfDigits [o1, o2] * 3600 + natOfDigits [o3, o4] * 60 : Nat) : Int)
                    else none
                | ['-', o1, o2, ':', o3, o4] =>
                    if [o1, o2, o3, o4].all Char.isDigit then
                      some (-((natOfDigits [o1, o2] * 3600 + natOfDigits [o3, o4] * 60 : Nat) : Int))
                    else none
                | _ => none
              match offsetStep with
              | none => none
              | some offsetSecs =>
                  let secs : Int := daysFromCivil year month day * 86400 +
                    (hour * 3600 + minute * 60 + second : Nat) - offsetSecs
                  some (secs * 1000 + (fracMs : Int))
  | _ => none

/-- Model of `parse_date_value`: numbers via `date_from_timestamp`, strings
via numeric parse first and RFC3339 second. -/
def parse_date_value (value : Json) : Option Int :=
  match value with
  | .num q => date_from_timestamp q
  | .str raw =>
      match parseF64 (trimStr raw) with
      | some q => date_from_timestamp q
      | none => rfc3339ToMillis raw
  | _ => none

/-- JWT payload email decoder (model of `decode_jwt_email`): exactly three
dot-separated segments, base64url payload without padding first and with
padding second, JSON payload, `email` then `preferred_username`. -/
def decode_jwt_email (token : String) : Option String :=
  match token.splitOn (".") with
  | [_header, payload, _signature] =>
      let decoded? :=
        match b64DecodeNoPad payload.data with
        | some bytes => some bytes
        | none => b64DecodePadded payload.data
      match decoded? with
      | none => none
      | some bytes =>
          match utf8Decode bytes with
          | none => none
          | some chars =>
              match parseJson (String.mk chars) with
              | none => none
              | some payloadRoot =>
                  match get_path_string payloadRoot ["email"] with
                  | some email => some email
                  | none => get_path_string payloadRoot ["preferred_username"]
  | _ => none

/-- Model of `normalize_email`: trim, lowercase, require nonempty with `@`. -/
def normalize_email (value : String) : Option String :=
  let trimmed := toLowerStr (trimStr value)
  if trimmed.isEmpty ∨ ¬(trimmed.data.contains '@') then none else some trimmed

/-- Slug accumulation loop of `email_slug`: ASCII alphanumerics kept, every
other run collapsed to one underscore. -/
def slugAux : List Char → Bool → List Char
  | [], _ => []
  | c :: rest, lastUnderscore =>
      if c.isAlphanum then c :: slugAux rest false
      else if lastUnderscore then slugAux rest true
      else '_' :: slugAux rest true

/-- Trim a character from both ends (model of `str::trim_matches`). -/
def trimMatches (l : List Char) (ch : Char) : List Char :=
  ((l.dropWhile (fun c => c = ch)).reverse.dropWhile (fun c => c = ch)).reverse

/-- Model of `email_slug`. -/
def email_slug (email : String) : Option String :=
  let output := slugAux (toLowerStr email).data false
  let trimmed := trimMatches output '_'
  if trimmed.isEmpty then none else some (String.mk trimmed)

/-- Model of `email_from_account_id`: strip the team prefix first, then the
plain prefix; split at the first underscore into local part and domain
slug; underscores in the domain slug become dots. -/
def email_from_account_id (account_id : String) : Option String :=
  let rest? :=
    match stripPre account_id ("acct_claude_team_") with
    | some rest => some rest
    | none => stripPre account_id ("acct_claude_")
  match rest? with
  | none => none
  | some rest =>
      match splitOnceChar rest '_' with
      | none => none
      | some (local_part, domain_slug) =>
          if local_part.isEmpty ∨ domain_slug.isEmpty then none
          else
            let domain := replaceChar domain_slug '_' '.'
            if domain.isEmpty then none
            else some (local_part ++ "@" ++ domain)

/-- Model of `parse_bool_value` (`Number::as_i64` succeeds exactly on
integral values, modelled as denominator one). -/
def parse_bool_value (value : Json) : Option Bool :=
  match value with
  | .bool b => some b
  | .num q => if q.den = 1 then some (q.num ≠ 0) else none
  | .str raw =>
      let lowered := toLowerStr (trimStr raw)
      if lowered = "true" ∨ lowered = "1" then some true
      else if lowered = "false" ∨ lowered = "0" then some false
      else if strContains lowered ("team") then some true
      else none
  | _ => none

/-- Model of `resolve_claude_is_team`. -/
def resolve_claude_is_team (root : Json) : Option Bool :=
  match (get_path_value root ["claudeAiOauth", "isTeam"]).bind parse_bool_value with
  | some v => some v
  | none =>
      match (get_path_value root ["isTeam"]).bind parse_bool_value with
      | some v => some v
      | none =>
          if (get_path_string root ["claudeAiOauth", "subscriptionType"]).map
              (fun v => strContains (toLowerStr v) ("team")) = some true then some true
          else if (get_path_string root ["subscriptionType"]).map
              (fun v => strContains (toLowerStr v) ("team")) = some true then some true
          else if (get_path_string root ["claudeAiOauth", "organization", "organization_type"]).map
              (fun v => strContains (toLowerStr v) ("team")) = some true then some true
          else if (get_path_string root ["organization", "organization_type"]).map
              (fun v => strContains (toLowerStr v) ("team")) = some true then some true
          else none

/-- Model of `resolve_plan_from_string`. -/
def resolve_plan_from_string (raw : String) : Option String :=
  let lowered := toLowerStr raw
  if strContains lowered ("max") ∧ strContains lowered ("20") then some ("Max 20x")
  else if strContains lowered ("max") ∧ strContains lowered ("5") then some ("Max 5x")
  else if strContains lowered ("pro") then some ("Pro")
  else if strContains lowered ("max") then some ("Max")
  else none

/-- Model of `resolve_claude_plan`: `rateLimitTier` preferred over
`subscriptionType`, nested paths preferred over root paths. -/
def resolve_claude_plan (root : Json) : Option String :=
  let rate_limit_tier :=
    match get_path_string root ["claudeAiOauth", "rateLimitTier"] with
    | some v => some v
    | none => get_path_string root ["rateLimitTier"]
  let subscription_type :=
    match get_path_string root ["claudeAiOauth", "subscriptionType"] with
    | some v => some v
    | none => get_path_string root ["subscriptionType"]
  match rate_limit_tier.bind resolve_plan_from_string with
  | some plan => some plan
  | none => subscription_type.bind resolve_plan_from_string

/-- Model of `extract_claude_email`: four direct paths in order, then the
JWT payload of `claudeAiOauth.accessToken`. -/
def extract_claude_email (root : Json) : Option String :=
  let direct :=
    [["email"], ["account", "email"], ["claudeAiOauth", "email"],
     ["claudeAiOauth", "account", "email"]].firstM
      (fun path => (get_path_string root path).bind normalize_email)
  match direct with
  | some email => some email
  | none =>
      ((get_path_string root ["claudeAiOauth", "accessToken"]).bind decode_jwt_email).bind
        normalize_email

/-- Model of the `ClaudeCredentials` struct (display-only fields omitted). -/
structure ClaudeCredentials where
  root : Json
  access_token : Option String
  refresh_token : Option String
  expires_at : Option Int
  scopes : List String

/-- Model of `parse_claude_credentials`: unparseable bytes degrade to an
empty object; tokens are read beneath `claudeAiOauth` only, the expiry also
falls back to the root. -/
def parse_claude_credentials (data : String) : ClaudeCredentials :=
  let root := (parseJson data).getD (Json.obj [])
  let oauth := (root.getKey ("claudeAiOauth")).bind Json.asObj
  let access_token := (oauth.bind (fun object => lookupField object ("accessToken"))).bind
    (fun v => value_as_string (some v))
  let refresh_token := (oauth.bind (fun object => lookupField object ("refreshToken"))).bind
    (fun v => value_as_string (some v))
  let expires_at :=
    match (oauth.bind (fun object => lookupField object ("expiresAt"))).bind parse_date_value with
    | some d => some d
    | none =>
        match (oauth.bind (fun object => lookupField object ("expires_at"))).bind parse_date_value with
        | some d => some d
        | none =>
            match (root.getKey ("expiresAt")).bind parse_date_value with
            | some d => some d
            | none => (root.getKey ("expires_at")).bind parse_date_value
  let scopes := ((oauth.bind (fun object => lookupField object ("scopes"))).map
    normalize_scope_value).getD []
  ⟨root, access_token, refresh_token, expires_at, scopes⟩

/-- Model of `refresh_lock_id_from_credentials_data`: the 16-hex refresh
token fingerprint, when a refresh token is present. -/
def refresh_lock_id_from_credentials_data (data : String) : Option String :=
  ((parse_claude_credentials data).refresh_token).map
    (fun refresh_token => short_hash_hex refresh_token)

/-- Model of `resolve_claude_account_id`: email slug (with team prefix) when
available, else a hash of the refresh token. -/
def resolve_claude_account_id (data : String) : String :=
  let parsed := parse_claude_credentials data
  let emailBased :=
    (extract_claude_email parsed.root).bind (fun email =>
      (email_slug email).map (fun slug =>
        if resolve_claude_is_team parsed.root = some true then
          "acct_claude_team_" ++ slug
        else
          "acct_claude_" ++ slug))
  match emailBased with
  | some id => id
  | none =>
      let refresh_token := parsed.refresh_token.getD ("-")
      let stable := "claude:refresh:" ++ refresh_token
      "acct_claude_" ++ short_hash_hex stable

/-- Model of `resolve_refresh_lock_id`: refresh-token fingerprint with the
account id as fallback. -/
def resolve_refresh_lock_id (data : String) (fallback : String) : String :=
  match (parse_claude_credentials data).refresh_token with
  | none => fallback
  | some refresh_token => short_hash_hex refresh_token

/-- JSON string escaping for serialization. -/
def renderStringChars (s : String) : List Char :=
  '"' :: (s.data.flatMap (fun c =>
    if c = '"' then ['\\', '"']
    else if c = '\\' then ['\\', '\\']
    else if c.toNat < 0x20 then
      let n := c.toNat
      let digit := fun v => if v < 10 then Char.ofNat ('0'.toNat + v)
        else Char.ofNat ('a'.toNat + v - 10)
      ['\\', 'u', '0', '0', digit (n / 16), digit (n % 16)]
    else [c])) ++ ['"']

/-- Decimal rendering of a rational that is integral; non-integral values
render with an explicit fraction marker (claims never serialize those). -/
def renderNum (q : ℚ) : List Char :=
  if q.den = 1 then (toString q.num).data else (toString q).data

mutual

/-- Compact JSON serializer (model of `serde_json::to_vec_pretty` up to
insignificant whitespace; no theorem below inspects serialized bytes). -/
def renderJson : Json → List Char
  | .null => ("null").data
  | .bool true => ("true").data
  | .bool false => ("false").data
  | .num q => renderNum q
  | .str s => renderStringChars s
  | .arr items => '[' :: renderItems items ++ [']']
  | .obj fields => '\x7b' :: renderFields fields ++ ['\x7d']

/-- Array body serialization. -/
def renderItems : List Json → List Char
  | [] => []
  | [v] => renderJson v
  | v :: rest => renderJson v ++ ',' :: renderItems rest

/-- Object body serialization. -/
def renderFields : List (String × Json) → List Char
  | [] => []
  | [(k, v)] => renderStringChars k ++ ':' :: renderJson v
  | (k, v) :: rest => renderStringChars k ++ ':' :: renderJson v ++ ',' :: renderFields rest

end

/-- Serialize a JSON value to a byte blob. -/
def Json.render (v : Json) : String :=
  String.mk (renderJson v)

/-- Model of `merge_claude_metadata_value`: copy the six metadata keys from
the fallback into the primary root and into its `claudeAiOauth` sub-object
wherever the primary is missing or null. -/
def merge_claude_metadata_value (primary fallback : Json) : Json :=
  match primary.asObj, fallback.asObj with
  | some primary_map, some fallback_map =>
      let metadata_keys :=
        ["email", "account", "organization", "subscriptionType", "rateLimitTier", "isTeam"]
      let copied := metadata_keys.foldl (fun acc key =>
        match lookupField fallback_map key with
        | some value =>
            let should_copy :=
              match lookupField acc key with
              | none => true
              | some existing => existing matches .null
            if should_copy then insertField acc key value else acc
        | none => acc) primary_map
      let primary_oauth :=
        (((lookupField copied ("claudeAiOauth")).bind Json.asObj)).getD []
      let fallback_oauth :=
        (((lookupField fallback_map ("claudeAiOauth")).bind Json.asObj)).getD []
      let merged_oauth := metadata_keys.foldl (fun acc key =>
        match lookupField fallback_oauth key with
        | some value =>
            let should_copy :=
              match lookupField acc key with
              | none => true
              | some existing => existing matches .null
            if should_copy then insertField acc key value else acc
        | none => acc) primary_oauth
      .obj (insertField copied ("claudeAiOauth") (.obj merged_oauth))
  | _, _ => primary

/-- Model of `load_stored_claude_root_by_refresh`: scan the stored account
credential files (given in directory order) for one whose refresh token
matches, and return its parsed root. -/
def load_stored_claude_root_by_refresh (stored : List String) (refresh_token : String) :
    Option Json :=
  match stored with
  | [] => none
  | data :: rest =>
      if (parse_claude_credentials data).refresh_token = some refresh_token then
        match parseJson data with
        | some root => some root
        | none => load_stored_claude_root_by_refresh rest refresh_token
      else load_stored_claude_root_by_refresh rest refresh_token

/-- Model of `merge_current_claude_credentials`:  unparseable keychain bytes
abort with `none` (the `.ok()?` early return); non-object keychain JSON is
returned as-is; otherwise the fallback root is the file (same refresh
token), else a stored account credential, else the file, and the metadata
merge result is serialized. -/
def merge_current_claude_credentials (stored : List String) (keychain_data : String)
    (fallback_file_data : Option String) : Option String :=
  match parseJson keychain_data with
  | none => none
  | some keychain_root =>
      if ¬keychain_root.isObj then some keychain_data
      else
        let keychain_refresh := (parse_claude_credentials keychain_data).refresh_token
        let fallback_root : Option Json :=
          match fallback_file_data with
          | some file_data =>
              let parsed := parseJson file_data
              match parsed, keychain_refresh with
              | some parsed_root, some kr =>
                  if (parse_claude_credentials file_data).refresh_token = some kr then
                    some parsed_root
                  else
                    match load_stored_claude_root_by_refresh stored kr with
                    | some root => some root
                    | none => parseJson file_data
              | _, _ => parsed
          | none =>
              match keychain_refresh with
              | some kr => load_stored_claude_root_by_refresh stored kr
              | none => none
        match fallback_root with
        | none => some keychain_data
        | some fr =>
            if ¬fr.isObj then some keychain_data
            else some (Json.render (merge_claude_metadata_value keychain_root fr))

/-- Model of `load_current_credentials`: keychain-first with metadata merge,
file fallback.  `keychain` is the trimmed keychain read, `file` the active
file read, `stored` the account-directory credential files. -/
def load_current_credentials (stored : List String) (keychain : Option String)
    (file : Option String) : Option String :=
  match keychain with
  | some keychain_data => merge_current_claude_credentials stored keychain_data file
  | none => file

/-- Service tag of an account (model of `UsageService`). -/
inductive UsageService where
  | claude
  | codex
  | gemini
deriving DecidableEq, Repr

/-- Model of `UsageAccount`. -/
structure UsageAccount where
  id : String
  service : UsageService
  label : String
  root_path : String
  updated_at : String
deriving DecidableEq, Repr

/-- Model of `UsageProfile`. -/
structure UsageProfile where
  name : String
  claude_account_id : Option String
  codex_account_id : Option String
  gemini_account_id : Option String
deriving DecidableEq, Repr

/-- Model of `AccountsSnapshot`. -/
structure AccountsSnapshot where
  accounts : List UsageAccount
  profiles : List UsageProfile
deriving DecidableEq, Repr

/-- File system model: association list from paths to contents. -/
def FS := List (String × String)

/-- Model of `fs::read` (successful read of an existing file). -/
def readFile (fs : FS) (path : String) : Option String :=
  match fs with
  | [] => none
  | (p, contents) :: rest => if p = path then some contents else readFile rest path

/-- Model of the atomic `write_file_atomic` replacing the file contents. -/
def writeFile (fs : FS) (path contents : String) : FS :=
  match fs with
  | [] => [(path, contents)]
  | (p, c) :: rest =>
      if p = path then (path, contents) :: rest else (p, c) :: writeFile rest path contents

/-- Stored credential path of an account
(`PathBuf::from(root_path).join(".claude/.credentials.json")`). -/
def credentialPath (account : UsageAccount) : String :=
  account.root_path ++ "/.claude/.credentials.json"

/-- Fingerprint-matching loop of `resolve_snapshot_account_id_for_credentials`:
first Claude account with a readable credential file sharing the lock id. -/
def findFingerprintMatch (fs : FS) : List UsageAccount → String → Option String
  | [], _ => none
  | account :: rest, lock_id =>
      if account.service = .claude then
        match readFile fs (credentialPath account) with
        | some existing_data =>
            if refresh_lock_id_from_credentials_data existing_data = some lock_id then
              some account.id
            else findFingerprintMatch fs rest lock_id
        | none => findFingerprintMatch fs rest lock_id
      else findFingerprintMatch fs rest lock_id

/-- Scoring loop of `resolve_snapshot_account_id_by_metadata`: skipped
accounts (non-Claude, unreadable, mandatory mismatch, zero score) produce
no entry. -/
def scoreAccounts (fs : FS) (accounts : List UsageAccount) (target_email : Option String)
    (target_team : Option Bool) (target_plan : Option String) : List (String × Int) :=
  match accounts with
  | [] => []
  | account :: rest =>
      let tail := scoreAccounts fs rest target_email target_team target_plan
      if account.service = .claude then
        match readFile fs (credentialPath account) with
        | none => tail
        | some existing_data =>
            let existing := parse_claude_credentials existing_data
            let existing_email := extract_claude_email existing.root
            let existing_team := resolve_claude_is_team existing.root
            let existing_plan := resolve_claude_plan existing.root
            let emailStep : Option Int :=
              match target_email with
              | some te => if existing_email = some te then some 100 else none
              | none => some 0
            match emailStep with
            | none => tail
            | some emailScore =>
                let teamStep : Option Int :=
                  match target_team, existing_team with
                  | some tt, some et => if et = tt then some 30 else none
                  | some _, none => some 0
                  | none, _ => some 0
                match teamStep with
                | none => tail
                | some teamScore =>
                    let planScore : Int :=
                      match target_plan with
                      | some tp => if existing_plan = some tp then 10 else 0
                      | none => 0
                    let score := emailScore + teamScore + planScore
                    if 0 < score then (account.id, score) :: tail else tail
      else tail

/-- Comparison used by the metadata scorer: descending score, ascending id. -/
def scoredLE (left right : String × Int) : Bool :=
  right.2 < left.2 ∨ (left.2 = right.2 ∧ left.1 ≤ right.1)

/-- Model of `resolve_snapshot_account_id_by_metadata`. -/
def resolve_snapshot_account_id_by_metadata (fs : FS) (snapshot : AccountsSnapshot)
    (data : String) : Option String :=
  let parsed := parse_claude_credentials data
  let target_email := extract_claude_email parsed.root
  let target_team := resolve_claude_is_team parsed.root
  let target_plan := resolve_claude_plan parsed.root
  if target_email = none ∧ target_team = none ∧ target_plan = none then none
  else
    let scored := scoreAccounts fs snapshot.accounts target_email target_team target_plan
    if scored.isEmpty then none
    else
      let sorted := scored.mergeSort scoredLE
      match sorted with
      | [] => none
      | [top] => some top.1
      | top :: second :: _ => if top.2 = second.2 then none else some top.1

/-- Model of `resolve_snapshot_account_id_for_credentials`: canonical id if
already present, else refresh-token fingerprint match, else metadata
scoring, else the canonical id. -/
def resolve_snapshot_account_id_for_credentials (fs : FS) (snapshot : AccountsSnapshot)
    (data : String) : String :=
  let direct_account_id := resolve_claude_account_id data
  if snapshot.accounts.any (fun account =>
      account.service = .claude ∧ account.id = direct_account_id) then
    direct_account_id
  else
    match refresh_lock_id_from_credentials_data data with
    | none => direct_account_id
    | some active_lock_id =>
        match findFingerprintMatch fs snapshot.accounts active_lock_id with
        | some account_id => account_id
        | none =>
            match resolve_snapshot_account_id_by_metadata fs snapshot data with
            | some account_id => account_id
            | none => direct_account_id

/-- State shared by the active-sync protocol: the keychain entry body and
the active credential file. -/
structure SyncState where
  keychain : Option String
  activeFile : Option String
deriving DecidableEq, Repr

/-- Environment oracle for the fallible steps of `sync_active_claude_credentials`,
with the error text each failing step would produce. -/
structure SyncOracle where
  putOk : Bool
  putErr : String
  fileOk : Bool
  fileErr : String
  restoreOk : Bool
deriving Repr

/-- Model of `sync_active_claude_credentials`: read the previous keychain
value, write the keychain (propagating failure), write the active file
atomically, and on file failure restore the previous keychain value best
effort (the restore's own error is discarded) while propagating the file
error. -/
def sync_active_claude_credentials (st : SyncState) (o : SyncOracle) (data : String) :
    Except String Unit × SyncState :=
  let previous_keychain := st.keychain
  if ¬o.putOk then (.error o.putErr, st)
  else
    let st1 : SyncState := ⟨some data, st.activeFile⟩
    if o.fileOk then (.ok (), ⟨st1.keychain, some data⟩)
    else
      let st2 : SyncState :=
        match previous_keychain with
        | some previous_raw => if o.restoreOk then ⟨some previous_raw, st1.activeFile⟩ else st1
        | none => st1
      (.error o.fileErr, st2)

/-- Failure kind of one refresh attempt (model of `RefreshFailureKind`). -/
inductive RefreshFailureKind where
  | needsLogin
  | error
deriving DecidableEq, Repr

/-- Model of `RefreshFailure`. -/
structure RefreshFailure where
  kind : RefreshFailureKind
  message : String
deriving DecidableEq, Repr

/-- Model of `AccountRefreshOutcome`; the success payload keeps the
refreshed credential bytes (the display-only usage fields are omitted). -/
inductive AccountRefreshOutcome where
  | success (credentials_data : String)
  | failed (failure : RefreshFailure)
deriving DecidableEq, Repr

/-- Model of `classify_refresh_failure`. -/
def classify_refresh_failure (message : String) : RefreshFailure :=
  let lowered := toLowerStr message
  let needs_login := strContains lowered ("invalid_grant") ∨
    strContains lowered ("refresh token not found or invalid") ∨
    strContains lowered ("oauth token has been revoked")
  ⟨if needs_login then .needsLogin else .error, message⟩

/-- Model of `ClaudeRefreshPayload` (the parsed OAuth token response). -/
structure ClaudeRefreshPayload where
  access_token : String
  refresh_token : Option String
  expires_in : Option ℚ
  scope : Option String
deriving Repr

/-- Default OAuth scope constant (`CLAUDE_DEFAULT_SCOPE`). -/
def CLAUDE_DEFAULT_SCOPE : String := "user:inference user:profile"

/-- Environment of one `refresh_all_profiles` run: the OAuth refresh client
and the wall clock, both external capabilities. -/
structure RefreshEnv where
  client : String → String → Except String ClaudeRefreshPayload
  nowMs : Int

/-- Model of `ensure_oauth_object` on the root value: non-objects are
replaced by an empty object, and a `claudeAiOauth` object member is
guaranteed. -/
def ensureOauthFields (root : Json) : List (String × Json) × List (String × Json) :=
  let root_map := (root.asObj).getD []
  match (lookupField root_map ("claudeAiOauth")).bind Json.asObj with
  | some oauth => (root_map, oauth)
  | none => (insertField root_map ("claudeAiOauth") (.obj []), [])

/-- Model of `refresh_claude_credentials_always`: extract the refresh token
(error when absent), call the OAuth client, splice the response tokens,
expiry and scopes into the credential, and serialize.  The second component
instruments which refresh-token fingerprint the client was invoked for. -/
def refresh_claude_credentials_always (env : RefreshEnv) (data : String) :
    Except String String × List String :=
  let parsed := parse_claude_credentials data
  match parsed.refresh_token with
  | none => (.error ("missing refresh token in stored credentials"), [])
  | some refresh_token =>
      let scope :=
        if parsed.scopes.isEmpty then CLAUDE_DEFAULT_SCOPE
        else String.intercalate (" ") parsed.scopes
      match env.client refresh_token scope with
      | .error e => (.error e, [short_hash_hex refresh_token])
      | .ok payload =>
          let next_refresh_token := payload.refresh_token.getD refresh_token
          let (root_map, oauth0) := ensureOauthFields parsed.root
          let oauth1 := insertField oauth0 ("accessToken") (.str payload.access_token)
          let oauth2 := insertField oauth1 ("refreshToken") (.str next_refresh_token)
          let oauth3 :=
            match payload.expires_in with
            | some expires_in =>
                insertField oauth2 ("expiresAt") (.num ((env.nowMs + rustRound (expires_in * 1000) : Int) : ℚ))
            | none => oauth2
          let oauth4 :=
            match payload.scope with
            | some scope_string =>
                insertField oauth3 ("scopes")
                  (.arr ((normalize_scope_string scope_string).map Json.str))
            | none => oauth3
          (.ok (Json.render (.obj (insertField root_map ("claudeAiOauth") (.obj oauth4)))),
           [short_hash_hex refresh_token])

/-- Mutable state threaded through the profile walk of
`refresh_all_profiles`.  `calls` instruments the refresh-token fingerprints
the OAuth client was invoked for. -/
structure RunState where
  fs : FS
  keychain : Option String
  activeFile : Option String
  byAccount : List (String × AccountRefreshOutcome)
  byLock : List (String × AccountRefreshOutcome)
  touched : List String
  calls : List String

/-- Association-map lookup (model of `HashMap::get`). -/
def mapLookup {α : Type} : List (String × α) → String → Option α
  | [], _ => none
  | (k, v) :: rest, key => if k = key then some v else mapLookup rest key

/-- Association-map insert (model of `HashMap::insert`). -/
def mapInsert {α : Type} : List (String × α) → String → α → List (String × α)
  | [], key, v => [(key, v)]
  | (k, w) :: rest, key, v =>
      if k = key then (key, v) :: rest else (k, w) :: mapInsert rest key v

/-- Model of `account_by_id` (`HashMap` collect: the last account with a
given id wins). -/
def accountById (accounts : List UsageAccount) (id : String) : Option UsageAccount :=
  accounts.reverse.find? (fun account => account.id = id)

/-- Model of `apply_refreshed_credentials` within the run model: write the
stored credential file, and when the account is the active one run the
active-sync (file and keychain writes succeed in this model; error
injection for the sync protocol is covered by `sync_active_claude_credentials`). -/
def applyRefreshedCredentials (active_account_id : Option String) (account_id : String)
    (credential_path : String) (refreshed_data : String) (st : RunState) : RunState :=
  let fs1 := writeFile st.fs credential_path refreshed_data
  if active_account_id = some account_id then
    { st with fs := fs1, keychain := some refreshed_data, activeFile := some refreshed_data }
  else
    { st with fs := fs1 }

/-- One iteration of the profile walk of `refresh_all_profiles` (the audit
logging, trace ids and usage fetch carry no model state).  The re-read
under lock equals the first read: within one single-threaded run nothing
writes between them. -/
def refreshStep (env : RefreshEnv) (active_account_id : Option String)
    (accounts : List UsageAccount) (st : RunState) (profile : UsageProfile) : RunState :=
  match profile.claude_account_id with
  | none => st
  | some account_id =>
      match accountById accounts account_id with
      | none => st
      | some account =>
          if account.service ≠ .claude then st
          else if (mapLookup st.byAccount account_id).isSome then st
          else
            let credential_path := credentialPath account
            match readFile st.fs credential_path with
            | none =>
                { st with byAccount := (mapInsert st.byAccount account_id
                    (.failed ⟨.error, "missing stored credentials: " ++ credential_path⟩)) }
            | some current_data =>
                let lock_id := resolve_refresh_lock_id current_data account_id
                match mapLookup st.byLock lock_id with
                | some existing_outcome =>
                    match existing_outcome with
                    | .success existing_data =>
                        let st1 := applyRefreshedCredentials active_account_id account_id
                          credential_path existing_data st
                        { st1 with
                          touched := account_id :: st1.touched,
                          byAccount := mapInsert st1.byAccount account_id existing_outcome }
                    | .failed _ =>
                        { st with byAccount := mapInsert st.byAccount account_id existing_outcome }
                | none =>
                    let (refreshed, called) := refresh_claude_credentials_always env current_data
                    let st0 := { st with calls := st.calls ++ called }
                    match refreshed with
                    | .ok refreshed_data =>
                        let st1 := applyRefreshedCredentials active_account_id account_id
                          credential_path refreshed_data st0
                        let outcome := AccountRefreshOutcome.success refreshed_data
                        { st1 with
                          touched := account_id :: st1.touched,
                          byLock := mapInsert st1.byLock lock_id outcome,
                          byAccount := mapInsert st1.byAccount account_id outcome }
                    | .error message =>
                        let outcome := AccountRefreshOutcome.failed
                          (classify_refresh_failure message)
                        { st0 with
                          byLock := mapInsert st0.byLock lock_id outcome,
                          byAccount := mapInsert st0.byAccount account_id outcome }

/-- The profile walk of `refresh_all_profiles` (steps 3-4 of the spec). -/
def refreshWalk (env : RefreshEnv) (active_account_id : Option String)
    (accounts : List UsageAccount) (profiles : List UsageProfile) (st : RunState) : RunState :=
  profiles.foldl (refreshStep env active_account_id accounts) st

/-- The profile walk started from the empty run bookkeeping, as
`refresh_all_profiles` starts it. -/
def refresh_all_walk (env : RefreshEnv) (active_account_id : Option String)
    (accounts : List UsageAccount) (profiles : List UsageProfile) (fs : FS)
    (keychain activeFile : Option String) : RunState :=
  refreshWalk env active_account_id accounts profiles ⟨fs, keychain, activeFile, [], [], [], []⟩

/-- Names of profiles whose recorded outcome is a failure, in profile
order (the `failed_profiles` accumulator of `refresh_all_profiles`). -/
def failedProfileNames : List UsageProfile → List (String × AccountRefreshOutcome) →
    List String
  | [], _ => []
  | profile :: rest, byAccount =>
      let tail := failedProfileNames rest byAccount
      match profile.claude_account_id with
      | none => tail
      | some account_id =>
          match mapLookup byAccount account_id with
          | some (.failed _) => profile.name :: tail
          | _ => tail

/-- Names of profiles whose recorded outcome is a needs-login failure
(the `needs_login_profiles` accumulator). -/
def needsLoginProfileNames : List UsageProfile → List (String × AccountRefreshOutcome) →
    List String
  | [], _ => []
  | profile :: rest, byAccount =>
      let tail := needsLoginProfileNames rest byAccount
      match profile.claude_account_id with
      | none => tail
      | some account_id =>
          match mapLookup byAccount account_id with
          | some (.failed failure) =>
              if failure.kind = .needsLogin then profile.name :: tail else tail
          | _ => tail

/-- Result aggregation of `refresh_all_profiles` (step 7): success without
failures, a need-login message when every failure needs login, and a mixed
message otherwise. -/
def refresh_aggregate (profiles : List UsageProfile)
    (byAccount : List (String × AccountRefreshOutcome)) : Except String Unit :=
  let failed_profiles := failedProfileNames profiles byAccount
  let needs_login_profiles := needsLoginProfileNames profiles byAccount
  if failed_profiles.isEmpty then .ok ()
  else if failed_profiles.length = needs_login_profiles.length then
    .error (toString failed_profiles.length ++ " profile(s) need login: " ++
      String.intercalate (",") needs_login_profiles)
  else
    .error (toString failed_profiles.length ++ " profile(s) failed (" ++
      toString needs_login_profiles.length ++ " need login): " ++
      String.intercalate (",") failed_profiles)

/-- Model of `upsert_account`: replace in place by id, else append. -/
def upsert_account : List UsageAccount → UsageAccount → List UsageAccount
  | [], account => [account]
  | item :: rest, account =>
      if item.id = account.id then account :: rest else item :: upsert_account rest account

/-- Model of `upsert_profile`: replace in place by name, else append. -/
def upsert_profile : List UsageProfile → UsageProfile → List UsageProfile
  | [], profile => [profile]
  | item :: rest, profile =>
      if item.name = profile.name then profile :: rest else item :: upsert_profile rest profile

/-- Snapshot transformation of `save_current_profile` (lines 571-598): the
resolved account is upserted, and the profile keeps any existing codex and
gemini links while its Claude link is replaced.  `account_id` is the
reconciliation result for the active credential, `label`, `root_path` and
`updated_at` mirror the freshly built `UsageAccount`. -/
def save_current_profile_update (snapshot : AccountsSnapshot) (profile_name : String)
    (account_id label root_path updated_at : String) : AccountsSnapshot :=
  let name := trimStr profile_name
  let account : UsageAccount := ⟨account_id, .claude, label, root_path, updated_at⟩
  let accounts1 := upsert_account snapshot.accounts account
  let existing := snapshot.profiles.find? (fun profile => profile.name = name)
  let profile : UsageProfile :=
    ⟨name, some account_id,
     existing.bind (fun item => item.codex_account_id),
     existing.bind (fun item => item.gemini_account_id)⟩
  ⟨accounts1, upsert_profile snapshot.profiles profile⟩

/-- Dot-joined concatenation of domain labels (used to state the shape of a
well-formed email domain in the round-trip theorem). -/
def dotJoin : List (List Char) → List Char
  | [] => []
  | [part] => part
  | part :: rest => part ++ '.' :: dotJoin rest

/-- Underscore-joined concatenation of domain labels (the slugged domain). -/
def usJoin : List (List Char) → List Char
  | [] => []
  | [part] => part
  | part :: rest => part ++ '_' :: usJoin rest

theorem rustRound_cast (n : ℤ) : rustRound ((n : ℚ)) = n := by
  unfold rustRound
  by_cases h : (0 : ℚ) ≤ (n : ℚ)
  · rw [if_pos h, Int.floor_eq_iff]
    constructor <;> norm_num
  · rw [if_neg h]
    rw [show -((n : ℚ)) = (((-n : ℤ)) : ℚ) by push_cast; ring]
    rw [show (⌊(((-n : ℤ)) : ℚ) + 1 / 2⌋ : ℤ) = -n from by
      rw [Int.floor_eq_iff]; constructor <;> push_cast <;> linarith]
    omega

theorem date_eval_low (q : ℚ) (h1 : q ≤ 1000000000) : date_from_timestamp q = none := by
  unfold date_from_timestamp
  by_cases h0 : q ≤ 0
  · rw [if_pos h0]
  · rw [if_neg h0, if_neg (by linarith), if_neg (by linarith)]

theorem date_eval_mid (q : ℚ) (h1 : 1000000000 < q) (h2 : q ≤ 1000000000000) :
    date_from_timestamp q = some (rustRound (q * 1000)) := by
  unfold date_from_timestamp
  rw [if_neg (by linarith), if_neg (by linarith), if_pos h1]
  show from_timestamp_millis (rustRound (q * 1000)) = some (rustRound (q * 1000))
  unfold from_timestamp_millis
  rw [if_pos ?_]
  constructor
  · calc chronoMinMs ≤ 0 := by decide
      _ ≤ rustRound (q * 1000) := by
          unfold rustRound
          rw [if_pos (by nlinarith)]
          exact Int.le_floor.mpr (by push_cast; nlinarith)
  · calc rustRound (q * 1000) = ⌊q * 1000 + 1 / 2⌋ := by
          unfold rustRound; rw [if_pos (by nlinarith)]
      _ ≤ ⌊(1000000000000000 : ℚ) + 1 / 2⌋ := Int.floor_le_floor (by nlinarith)
      _ = 1000000000000000 := by
          rw [Int.floor_eq_iff]; constructor <;> norm_num
      _ ≤ chronoMaxMs := by decide

theorem date_eval_1e12 : date_from_timestamp 1000000000000 = some 1000000000000000 := by
  rw [date_eval_mid 1000000000000 (by norm_num) le_rfl,
    show ((1000000000000 : ℚ) * 1000) = (((1000000000000000 : ℤ)) : ℚ) by norm_num,
    rustRound_cast]

/-- Claim C7 (amended): `date_from_timestamp` uses strict comparisons: a
finite numeric value `v` is accepted as epoch seconds exactly when
`1e9 < v ≤ 1e12` (scaled by 1000), as epoch milliseconds when `1e12 < v`
(subject to chrono's representable range), and yields an absent expiry for
every `v ≤ 1e9` — in particular `v = 1e9` is rejected and `v = 1e12` is
taken as epoch seconds, not milliseconds. -/
theorem C7_amended (q : ℚ) :
    (q ≤ 1000000000 → date_from_timestamp q = none) ∧
    (1000000000 < q → q ≤ 1000000000000 →
      date_from_timestamp q = some (rustRound (q * 1000))) ∧
    (1000000000000 < q → date_from_timestamp q = from_timestamp_millis (rustRound q)) := by
  refine ⟨date_eval_low q, date_eval_mid q, fun h1 => ?_⟩
  unfold date_from_timestamp
  rw [if_neg (by linarith), if_pos h1]

/-- Claim C7 counterexample: the claim accepts `v = 1e9` as epoch seconds
and `v = 1e12` as epoch milliseconds, but the code rejects `1e9` outright
and multiplies `1e12` by 1000 (treating it as seconds). -/
theorem C7_counterexample :
    date_from_timestamp 1000000000 = none ∧
    date_from_timestamp 1000000000000 = some 1000000000000000 ∧
    ¬ date_from_timestamp 1000000000000 = some 1000000000000 :=
  ⟨date_eval_low 1000000000 le_rfl, date_eval_1e12, by rw [date_eval_1e12]; simp⟩

/-- Witness for C7: the three regimes at 5e8, 2e9 and 2e12. -/
theorem C7_witness :
    date_from_timestamp 500000000 = none ∧
    date_from_timestamp 2000000000 = some (rustRound ((2000000000 : ℚ) * 1000)) ∧
    date_from_timestamp 2000000000000 = from_timestamp_millis (rustRound 2000000000000) :=
  ⟨(C7_amended 500000000).1 (by norm_num),
   (C7_amended 2000000000).2.1 (by norm_num) (by norm_num),
   (C7_amended 2000000000000).2.2 (by norm_num)⟩

/-- Claim C6 (amended): `parse_claude_credentials` reads `accessToken` and
`refreshToken` only from within the nested `claudeAiOauth` object.  When
the blob has no `claudeAiOauth` object the parser extracts no tokens even
if the fields appear at the JSON root; when the nested object is present
its token fields are extracted. -/
theorem C6_amended :
    (∀ data root, parseJson data = some root →
      (root.getKey ("claudeAiOauth")).bind Json.asObj = none →
      (parse_claude_credentials data).access_token = none ∧
      (parse_claude_credentials data).refresh_token = none) ∧
    (∀ data root fields, parseJson data = some root →
      root.getKey ("claudeAiOauth") = some (.obj fields) →
      (parse_claude_credentials data).access_token =
        (lookupField fields ("accessToken")).bind (fun v => value_as_string (some v)) ∧
      (parse_claude_credentials data).refresh_token =
        (lookupField fields ("refreshToken")).bind (fun v => value_as_string (some v))) := by
  constructor
  · intro data root h1 h2
    unfold parse_claude_credentials
    rw [h1]
    simp only [Option.getD_some, h2, Option.bind_none, Option.none_bind]
    exact ⟨trivial, trivial⟩
  · intro data root fields h1 h2
    unfold parse_claude_credentials
    rw [h1]
    simp only [Option.getD_some, h2, Option.bind_some, Json.asObj, Option.some_bind]
    exact ⟨trivial, trivial⟩

/-- Claim C6 counterexample: a blob carrying `accessToken`/`refreshToken`
only at the JSON root yields no extracted tokens, contradicting the claim
that the parser reads them the same as nested ones. -/
theorem C6_counterexample :
    (parse_claude_credentials ("\x7b\"accessToken\":\"a\",\"refreshToken\":\"r\"\x7d")).access_token = none ∧
    (parse_claude_credentials ("\x7b\"accessToken\":\"a\",\"refreshToken\":\"r\"\x7d")).refresh_token = none ∧
    ¬ (parse_claude_credentials ("\x7b\"accessToken\":\"a\",\"refreshToken\":\"r\"\x7d")).access_token
        = some ("a") := by
  refine ⟨rfl, rfl, by decide⟩

/-- Witness for C6: both parts of the amended theorem at concrete blobs. -/
theorem C6_witness :
    ((parse_claude_credentials ("\x7b\"accessToken\":\"a\",\"refreshToken\":\"r\"\x7d")).access_token = none ∧
     (parse_claude_credentials ("\x7b\"accessToken\":\"a\",\"refreshToken\":\"r\"\x7d")).refresh_token = none) ∧
    ((parse_claude_credentials
        ("\x7b\"claudeAiOauth\":\x7b\"accessToken\":\"a\",\"refreshToken\":\"r\"\x7d\x7d")).access_token =
      (lookupField [("accessToken", Json.str ("a")), ("refreshToken", Json.str ("r"))]
        ("accessToken")).bind (fun v => value_as_string (some v)) ∧
     (parse_claude_credentials
        ("\x7b\"claudeAiOauth\":\x7b\"accessToken\":\"a\",\"refreshToken\":\"r\"\x7d\x7d")).refresh_token =
      (lookupField [("accessToken", Json.str ("a")), ("refreshToken", Json.str ("r"))]
        ("refreshToken")).bind (fun v => value_as_string (some v))) :=
  ⟨C6_amended.1 ("\x7b\"accessToken\":\"a\",\"refreshToken\":\"r\"\x7d")
     (Json.obj [("accessToken", Json.str ("a")), ("refreshToken", Json.str ("r"))]) rfl rfl,
   C6_amended.2 ("\x7b\"claudeAiOauth\":\x7b\"accessToken\":\"a\",\"refreshToken\":\"r\"\x7d\x7d")
     (Json.obj [("claudeAiOauth",
        Json.obj [("accessToken", Json.str ("a")), ("refreshToken", Json.str ("r"))])])
     [("accessToken", Json.str ("a")), ("refreshToken", Json.str ("r"))] rfl rfl⟩

/-- Claim C5 (amended): when the keychain value is present but is not valid
JSON at all, `load_current_credentials` returns absent (the parse failure
propagates through `merge_current_claude_credentials`); when it parses to a
non-object JSON value the keychain bytes are returned unchanged; when the
keychain value is absent the active file bytes (or absent) are returned. -/
theorem C5_amended :
    (∀ stored k file, parseJson k = none →
      load_current_credentials stored (some k) file = none) ∧
    (∀ stored k file root, parseJson k = some root → root.isObj = false →
      load_current_credentials stored (some k) file = some k) ∧
    (∀ stored file, load_current_credentials stored none file = file) := by
  refine ⟨fun stored k file h => ?_, fun stored k file root h1 h2 => ?_, fun stored file => rfl⟩
  · show merge_current_claude_credentials stored k file = none
    unfold merge_current_claude_credentials
    rw [h]
  · show merge_current_claude_credentials stored k file = some k
    unfold merge_current_claude_credentials
    rw [h1]
    simp [h2]

/-- Claim C5 counterexample: with keychain bytes that are not valid JSON,
`load_current_credentials` returns absent, not the keychain bytes the claim
demands. -/
theorem C5_counterexample :
    load_current_credentials [] (some ("hello")) (some ("x")) = none ∧
    ¬ load_current_credentials [] (some ("hello")) (some ("x")) = some ("hello") :=
  ⟨rfl, by decide⟩

/-- Witness for C5: the three amended branches at concrete inputs. -/
theorem C5_witness :
    load_current_credentials [] (some ("nope")) (some ("f")) = none ∧
    load_current_credentials [] (some ("5")) (some ("f")) = some ("5") ∧
    load_current_credentials [] none (some ("f")) = some ("f") :=
  ⟨C5_amended.1 [] ("nope") (some ("f")) rfl,
   C5_amended.2.1 [] ("5") (some ("f")) (Json.num 5) rfl rfl,
   C5_amended.2.2 [] (some ("f"))⟩

/-- Claim C2: active-sync atomicity.  A successful `sync_active` leaves the
credential bytes in both the keychain and the active file; when the
keychain write succeeds but the atomic file write fails and a previous
keychain value existed, the file-write error is propagated and (when the
best-effort restore write itself succeeds) the keychain again holds the
previous value; a failing restore is swallowed and does not change the
propagated error. -/
theorem C2_sync_atomicity :
    (∀ st o data, (sync_active_claude_credentials st o data).1 = .ok () →
      (sync_active_claude_credentials st o data).2.keychain = some data ∧
      (sync_active_claude_credentials st o data).2.activeFile = some data) ∧
    (∀ st o data P, o.putOk = true → o.fileOk = false → st.keychain = some P →
      (sync_active_claude_credentials st o data).1 = .error o.fileErr ∧
      (o.restoreOk = true →
        (sync_active_claude_credentials st o data).2.keychain = some P)) := by
  constructor
  · intro st o data h
    cases hput : o.putOk with
    | false => simp [sync_active_claude_credentials, hput] at h
    | true =>
      cases hfile : o.fileOk with
      | true => simp [sync_active_claude_credentials, hput, hfile]
      | false => simp [sync_active_claude_credentials, hput, hfile] at h
  · intro st o data P hput hfile hk
    refine ⟨by simp [sync_active_claude_credentials, hput, hfile], fun hres => ?_⟩
    simp [sync_active_claude_credentials, hput, hfile, hk, hres]

/-- Witness for C2: a successful sync stores the new bytes in both places,
and a failed file write with a prior keychain value rolls the keychain
back while propagating the file error. -/
theorem C2_witness :
    ((sync_active_claude_credentials ⟨some ("p"), none⟩ ⟨true, "pe", true, "fe", true⟩
        ("d")).2.keychain = some ("d") ∧
     (sync_active_claude_credentials ⟨some ("p"), none⟩ ⟨true, "pe", true, "fe", true⟩
        ("d")).2.activeFile = some ("d")) ∧
    ((sync_active_claude_credentials ⟨some ("p"), none⟩ ⟨true, "pe", false, "fe", true⟩
        ("d")).1 = .error ("fe") ∧
     (sync_active_claude_credentials ⟨some ("p"), none⟩ ⟨true, "pe", false, "fe", true⟩
        ("d")).2.keychain = some ("p")) :=
  ⟨C2_sync_atomicity.1 ⟨some ("p"), none⟩ ⟨true, "pe", true, "fe", true⟩ ("d") rfl,
   (C2_sync_atomicity.2 ⟨some ("p"), none⟩ ⟨true, "pe", false, "fe", true⟩ ("d") ("p")
      rfl rfl rfl).1,
   (C2_sync_atomicity.2 ⟨some ("p"), none⟩ ⟨true, "pe", false, "fe", true⟩ ("d") ("p")
      rfl rfl rfl).2 rfl⟩

theorem find_profile_in_middle (pre post : List UsageProfile) (p : UsageProfile) (name : String)
    (hpre : ∀ q ∈ pre, q.name ≠ name) (hp : p.name = name) :
    (pre ++ p :: post).find? (fun profile => profile.name = name) = some p := by
  induction pre with
  | nil => simp [List.find?_cons, hp]
  | cons q rest ih =>
      have hq : q.name ≠ name := hpre q (by simp)
      simp only [List.cons_append, List.find?_cons, decide_eq_false hq]
      exact ih (fun r hr => hpre r (by simp [hr]))

theorem upsert_profile_in_middle (pre post : List UsageProfile) (p profile : UsageProfile)
    (hpre : ∀ q ∈ pre, q.name ≠ profile.name) (hp : p.name = profile.name) :
    upsert_profile (pre ++ p :: post) profile = pre ++ profile :: post := by
  induction pre with
  | nil => simp [upsert_profile, hp]
  | cons q rest ih =>
      have hq : q.name ≠ profile.name := hpre q (by simp)
      simp only [List.cons_append, upsert_profile]
      rw [if_neg hq]
      exact congrArg (fun l => q :: l) (ih (fun r hr => hpre r (by simp [hr])))

/-- Claim C9: when `save <name>` updates an existing profile, the profile
keeps its position in the list, its codex and gemini account links are
carried over unchanged, and only the Claude link is replaced; profiles
before and after it are untouched. -/
theorem C9_save_frame (accounts : List UsageAccount) (pre post : List UsageProfile)
    (p : UsageProfile) (profile_name account_id label root_path updated_at : String)
    (hp : p.name = trimStr profile_name)
    (hpre : ∀ q ∈ pre, q.name ≠ trimStr profile_name) :
    (save_current_profile_update ⟨accounts, pre ++ p :: post⟩ profile_name account_id label
        root_path updated_at).profiles =
      pre ++ (⟨trimStr profile_name, some account_id, p.codex_account_id,
        p.gemini_account_id⟩ : UsageProfile) :: post := by
  unfold save_current_profile_update
  simp only
  rw [find_profile_in_middle pre post p (trimStr profile_name) hpre hp]
  exact upsert_profile_in_middle pre post p _ (by simpa using hpre) (by simpa using hp)

/-- Witness for C9: updating the one existing profile `home` keeps its codex
and gemini links and replaces only the Claude link. -/
theorem C9_witness :
    (save_current_profile_update ⟨[], [⟨"home", some ("old"), some ("cx"), some ("gm")⟩]⟩
        ("home") ("acct_new") ("lbl") ("root") ("ts")).profiles =
      [⟨trimStr ("home"), some ("acct_new"), some ("cx"), some ("gm")⟩] :=
  C9_save_frame [] [] [] ⟨"home", some ("old"), some ("cx"), some ("gm")⟩
    ("home") ("acct_new") ("lbl") ("root") ("ts") rfl (by simp)

theorem metadata_none_of_empty_target (data : String)
    (h1 : extract_claude_email (parse_claude_credentials data).root = none)
    (h2 : resolve_claude_is_team (parse_claude_credentials data).root = none)
    (h3 : resolve_claude_plan (parse_claude_credentials data).root = none)
    (fs : FS) (snapshot : AccountsSnapshot) :
    resolve_snapshot_account_id_by_metadata fs snapshot data = none := by
  unfold resolve_snapshot_account_id_by_metadata
  rw [if_pos ⟨h1, h2, h3⟩]

/-- Claim C10: when no email, team flag or plan can be resolved from the
credential, metadata scoring returns absent for every file-system state
(so no stored credential is consulted), and reconciliation falls through
to the canonical derived id whenever the direct-id and fingerprint steps
also find nothing. -/
theorem C10_metadata_empty_target (data : String)
    (h1 : extract_claude_email (parse_claude_credentials data).root = none)
    (h2 : resolve_claude_is_team (parse_claude_credentials data).root = none)
    (h3 : resolve_claude_plan (parse_claude_credentials data).root = none) :
    (∀ fs snapshot, resolve_snapshot_account_id_by_metadata fs snapshot data = none) ∧
    (∀ fs snapshot,
      (snapshot.accounts.any (fun account =>
        account.service = .claude ∧ account.id = resolve_claude_account_id data)) = false →
      (∀ lid, refresh_lock_id_from_credentials_data data = some lid →
        findFingerprintMatch fs snapshot.accounts lid = none) →
      resolve_snapshot_account_id_for_credentials fs snapshot data =
        resolve_claude_account_id data) := by
  refine ⟨metadata_none_of_empty_target data h1 h2 h3, fun fs snapshot hany hfp => ?_⟩
  unfold resolve_snapshot_account_id_for_credentials
  rw [if_neg (by rw [hany]; simp)]
  cases hl : refresh_lock_id_from_credentials_data data with
  | none => rfl
  | some lid =>
      simp only [hfp lid hl, metadata_none_of_empty_target data h1 h2 h3 fs snapshot]

/-- Witness for C10: the empty credential blob resolves no metadata, and on
the empty snapshot reconciliation returns the canonical id. -/
theorem C10_witness :
    resolve_snapshot_account_id_by_metadata [] ⟨[], []⟩ ("\x7b\x7d") = none ∧
    resolve_snapshot_account_id_for_credentials [] ⟨[], []⟩ ("\x7b\x7d") =
      resolve_claude_account_id ("\x7b\x7d") :=
  ⟨(C10_metadata_empty_target ("\x7b\x7d") rfl rfl rfl).1 [] ⟨[], []⟩,
   (C10_metadata_empty_target ("\x7b\x7d") rfl rfl rfl).2 [] ⟨[], []⟩ rfl
     (fun _lid _h => rfl)⟩

theorem findFingerprintMatch_of_exists (fs : FS) (lid : String) :
    ∀ accounts : List UsageAccount,
      (∃ a ∈ accounts, a.service = UsageService.claude ∧
        ∃ d, readFile fs (credentialPath a) = some d ∧
          refresh_lock_id_from_credentials_data d = some lid) →
      ∃ a ∈ accounts, a.service = UsageService.claude ∧
        (∃ d, readFile fs (credentialPath a) = some d ∧
          refresh_lock_id_from_credentials_data d = some lid) ∧
        findFingerprintMatch fs accounts lid = some a.id := by
  intro accounts
  induction accounts with
  | nil => rintro ⟨a, ha, _⟩; exact absurd ha (List.not_mem_nil a)
  | cons b rest ih =>
      rintro ⟨a, ha, hserv, d, hread, hfp⟩
      by_cases hb : b.service = UsageService.claude
      · cases hbr : readFile fs (credentialPath b) with
        | some db =>
            by_cases hdb : refresh_lock_id_from_credentials_data db = some lid
            · refine ⟨b, by simp, hb, ⟨db, hbr, hdb⟩, ?_⟩
              unfold findFingerprintMatch
              rw [if_pos hb, hbr]
              simp [hdb]
            · have hinner : ∃ a ∈ rest, a.service = UsageService.claude ∧
                  ∃ d, readFile fs (credentialPath a) = some d ∧
                    refresh_lock_id_from_credentials_data d = some lid := by
                rcases List.mem_cons.mp ha with rfl | hmem
                · rw [hbr] at hread
                  cases hread
                  exact absurd hfp hdb
                · exact ⟨a, hmem, hserv, d, hread, hfp⟩
              obtain ⟨c, hc, hcs, hcd, hcfind⟩ := ih hinner
              refine ⟨c, by simp [hc], hcs, hcd, ?_⟩
              unfold findFingerprintMatch
              rw [if_pos hb, hbr]
              simpa [hdb] using hcfind
        | none =>
            have hinner : ∃ a ∈ rest, a.service = UsageService.claude ∧
                ∃ d, readFile fs (credentialPath a) = some d ∧
                  refresh_lock_id_from_credentials_data d = some lid := by
              rcases List.mem_cons.mp ha with rfl | hmem
              · rw [hbr] at hread; cases hread
              · exact ⟨a, hmem, hserv, d, hread, hfp⟩
            obtain ⟨c, hc, hcs, hcd, hcfind⟩ := ih hinner
            refine ⟨c, by simp [hc], hcs, hcd, ?_⟩
            unfold findFingerprintMatch
            rw [if_pos hb, hbr]
            exact hcfind
      · have hinner : ∃ a ∈ rest, a.service = UsageService.claude ∧
            ∃ d, readFile fs (credentialPath a) = some d ∧
              refresh_lock_id_from_credentials_data d = some lid := by
          rcases List.mem_cons.mp ha with rfl | hmem
          · exact absurd hserv hb
          · exact ⟨a, hmem, hserv, d, hread, hfp⟩
        obtain ⟨c, hc, hcs, hcd, hcfind⟩ := ih hinner
        refine ⟨c, by simp [hc], hcs, hcd, ?_⟩
        unfold findFingerprintMatch
        rw [if_neg hb]
        exact hcfind

/-- Claim C1: refresh-token-fingerprint match dominates metadata scoring.
When the canonical derived id of the credential is not already a Claude
account id in the snapshot and some Claude account has a readable stored
credential sharing the refresh-token fingerprint, reconciliation returns
the id of such a matching account (the first one), regardless of metadata
scores. -/
theorem C1_fingerprint_dominates (fs : FS) (snapshot : AccountsSnapshot) (data lid : String)
    (hdirect : (snapshot.accounts.any (fun account =>
      account.service = UsageService.claude ∧
      account.id = resolve_claude_account_id data)) = false)
    (hlid : refresh_lock_id_from_credentials_data data = some lid)
    (hmatch : ∃ a ∈ snapshot.accounts, a.service = UsageService.claude ∧
      ∃ d, readFile fs (credentialPath a) = some d ∧
        refresh_lock_id_from_credentials_data d = some lid) :
    ∃ a ∈ snapshot.accounts, a.service = UsageService.claude ∧
      (∃ d, readFile fs (credentialPath a) = some d ∧
        refresh_lock_id_from_credentials_data d = some lid) ∧
      resolve_snapshot_account_id_for_credentials fs snapshot data = a.id := by
  obtain ⟨a, ha, hserv, hd, hfind⟩ :=
    findFingerprintMatch_of_exists fs lid snapshot.accounts hmatch
  refine ⟨a, ha, hserv, hd, ?_⟩
  unfold resolve_snapshot_account_id_for_credentials
  rw [if_neg (by rw [hdirect]; simp)]
  simp only [hlid, hfind]

/-- Witness for C1: a stored account sharing the refresh token of the
active credential is returned by reconciliation. -/
theorem C1_witness :
    ∃ a ∈ [(⟨"acct_stored", UsageService.claude, "lbl", "root", "ts"⟩ : UsageAccount)],
      a.service = UsageService.claude ∧
      (∃ d, readFile [("root/.claude/.credentials.json",
          "\x7b\"email\":\"x@y\",\"claudeAiOauth\":\x7b\"refreshToken\":\"rt\"\x7d\x7d")]
          (credentialPath a) = some d ∧
        refresh_lock_id_from_credentials_data d = some (short_hash_hex ("rt"))) ∧
      resolve_snapshot_account_id_for_credentials
        [("root/.claude/.credentials.json",
          "\x7b\"email\":\"x@y\",\"claudeAiOauth\":\x7b\"refreshToken\":\"rt\"\x7d\x7d")]
        ⟨[⟨"acct_stored", UsageService.claude, "lbl", "root", "ts"⟩], []⟩
        ("\x7b\"email\":\"x@y\",\"claudeAiOauth\":\x7b\"refreshToken\":\"rt\"\x7d\x7d") = a.id :=
  C1_fingerprint_dominates
    [("root/.claude/.credentials.json",
      "\x7b\"email\":\"x@y\",\"claudeAiOauth\":\x7b\"refreshToken\":\"rt\"\x7d\x7d")]
    ⟨[⟨"acct_stored", UsageService.claude, "lbl", "root", "ts"⟩], []⟩
    ("\x7b\"email\":\"x@y\",\"claudeAiOauth\":\x7b\"refreshToken\":\"rt\"\x7d\x7d")
    (short_hash_hex ("rt"))
    (by decide)
    rfl
    ⟨⟨"acct_stored", UsageService.claude, "lbl", "root", "ts"⟩, by simp,
      rfl,
      "\x7b\"email\":\"x@y\",\"claudeAiOauth\":\x7b\"refreshToken\":\"rt\"\x7d\x7d",
      rfl, rfl⟩

theorem nl_eq_failed_of_all (profiles : List UsageProfile)
    (m : List (String × AccountRefreshOutcome))
    (h : ∀ p ∈ profiles, ∀ aid f, p.claude_account_id = some aid →
      mapLookup m aid = some (.failed f) → f.kind = RefreshFailureKind.needsLogin) :
    needsLoginProfileNames profiles m = failedProfileNames profiles m := by
  induction profiles with
  | nil => rfl
  | cons p rest ih =>
      have htail := ih (fun q hq => h q (by simp [hq]))
      cases hcid : p.claude_account_id with
      | none => simp only [needsLoginProfileNames, failedProfileNames, hcid]; exact htail
      | some aid =>
          cases hl : mapLookup m aid with
          | none =>
              simp only [needsLoginProfileNames, failedProfileNames, hcid, hl]
              exact htail
          | some outcome =>
              cases outcome with
              | success d =>
                  simp only [needsLoginProfileNames, failedProfileNames, hcid, hl]
                  exact htail
              | failed f =>
                  simp only [needsLoginProfileNames, failedProfileNames, hcid, hl,
                    h p (by simp) aid f hcid hl, reduceIte]
                  exact congrArg (fun l => p.name :: l) htail

theorem nl_length_le (profiles : List UsageProfile)
    (m : List (String × AccountRefreshOutcome)) :
    (needsLoginProfileNames profiles m).length ≤ (failedProfileNames profiles m).length := by
  induction profiles with
  | nil => exact le_rfl
  | cons p rest ih =>
      cases hcid : p.claude_account_id with
      | none => simp only [needsLoginProfileNames, failedProfileNames, hcid]; exact ih
      | some aid =>
          cases hl : mapLookup m aid with
          | none =>
              simp only [needsLoginProfileNames, failedProfileNames, hcid, hl]
              exact ih
          | some outcome =>
              cases outcome with
              | success d =>
                  simp only [needsLoginProfileNames, failedProfileNames, hcid, hl]
                  exact ih
              | failed f =>
                  cases hk : f.kind with
                  | needsLogin =>
                      simp only [needsLoginProfileNames, failedProfileNames, hcid, hl, hk,
                        reduceIte, List.length_cons]
                      exact Nat.succ_le_succ ih
                  | error =>
                      simp only [needsLoginProfileNames, failedProfileNames, hcid, hl, hk,
                        reduceCtorEq, reduceIte, List.length_cons]
                      exact Nat.le_succ_of_le ih

theorem nl_length_lt_of_mixed (profiles : List UsageProfile)
    (m : List (String × AccountRefreshOutcome))
    (h : ∃ p ∈ profiles, ∃ aid f, p.claude_account_id = some aid ∧
      mapLookup m aid = some (.failed f) ∧ f.kind = RefreshFailureKind.error) :
    (needsLoginProfileNames profiles m).length < (failedProfileNames profiles m).length := by
  induction profiles with
  | nil => obtain ⟨p, hp, _⟩ := h; exact absurd hp (List.not_mem_nil p)
  | cons p rest ih =>
      obtain ⟨q, hq, aid, f, hcid, hl, hk⟩ := h
      rcases List.mem_cons.mp hq with rfl | hmem
      · simp only [needsLoginProfileNames, failedProfileNames, hcid, hl, hk,
          reduceCtorEq, reduceIte, List.length_cons]
        exact Nat.lt_succ_of_le (nl_length_le rest m)
      · have hlt := ih ⟨q, hmem, aid, f, hcid, hl, hk⟩
        cases hcid2 : p.claude_account_id with
        | none =>
            simp only [needsLoginProfileNames, failedProfileNames, hcid2]
            exact hlt
        | some aid2 =>
            cases hl2 : mapLookup m aid2 with
            | none =>
                simp only [needsLoginProfileNames, failedProfileNames, hcid2, hl2]
                exact hlt
            | some outcome =>
                cases outcome with
                | success d =>
                    simp only [needsLoginProfileNames, failedProfileNames, hcid2, hl2]
                    exact hlt
                | failed f2 =>
                    cases hk2 : f2.kind with
                    | needsLogin =>
                        simp only [needsLoginProfileNames, failedProfileNames, hcid2, hl2, hk2,
                          reduceIte, List.length_cons]
                        exact Nat.succ_lt_succ hlt
                    | error =>
                        simp only [needsLoginProfileNames, failedProfileNames, hcid2, hl2, hk2,
                          reduceCtorEq, reduceIte, List.length_cons]
                        exact Nat.lt_succ_of_lt hlt

/-- Claim C8: `refresh_all` aggregation returns success exactly when no
profile recorded a failure; when every recorded failure is needs-login the
error message is "N profile(s) need login: names"; when some failure is
not needs-login the message is "N profile(s) failed (K need login):
names". -/
theorem C8_aggregation (profiles : List UsageProfile)
    (m : List (String × AccountRefreshOutcome)) :
    (refresh_aggregate profiles m = .ok () ↔ failedProfileNames profiles m = []) ∧
    (failedProfileNames profiles m ≠ [] →
      (∀ p ∈ profiles, ∀ aid f, p.claude_account_id = some aid →
        mapLookup m aid = some (.failed f) → f.kind = RefreshFailureKind.needsLogin) →
      refresh_aggregate profiles m =
        .error (toString (failedProfileNames profiles m).length ++
          (" profile(s) need login: ") ++
          String.intercalate (",") (failedProfileNames profiles m))) ∧
    ((∃ p ∈ profiles, ∃ aid f, p.claude_account_id = some aid ∧
        mapLookup m aid = some (.failed f) ∧ f.kind = RefreshFailureKind.error) →
      refresh_aggregate profiles m =
        .error (toString (failedProfileNames profiles m).length ++
          (" profile(s) failed (") ++
          toString (needsLoginProfileNames profiles m).length ++
          (" need login): ") ++
          String.intercalate (",") (failedProfileNames profiles m))) := by
  refine ⟨?_, fun hne hall => ?_, fun hmix => ?_⟩
  · constructor
    · intro h
      by_cases he : failedProfileNames profiles m = []
      · exact he
      · unfold refresh_aggregate at h
        rw [if_neg (by simpa using he)] at h
        by_cases hlen : (failedProfileNames profiles m).length =
            (needsLoginProfileNames profiles m).length
        · rw [if_pos hlen] at h; cases h
        · rw [if_neg hlen] at h; cases h
    · intro h
      unfold refresh_aggregate
      rw [if_pos (by simpa using h)]
  · have heq := nl_eq_failed_of_all profiles m hall
    unfold refresh_aggregate
    rw [if_neg (by simpa using hne), if_pos (by rw [heq]), heq]
  · have hlt := nl_length_lt_of_mixed profiles m hmix
    have hne : failedProfileNames profiles m ≠ [] := by
      intro hnil
      rw [hnil] at hlt
      exact absurd hlt (by simp)
    unfold refresh_aggregate
    rw [if_neg (by simpa using hne), if_neg (by omega)]

/-- Witness for C8: success, all-needs-login, and mixed aggregation at
concrete outcome maps. -/
theorem C8_witness :
    (refresh_aggregate [⟨"a", some ("acct"), none, none⟩] [] = .ok () ∧
     refresh_aggregate [⟨"a", some ("acct"), none, none⟩]
        [(("acct"), .failed ⟨.needsLogin, "invalid_grant"⟩)] =
       .error ("1 profile(s) need login: a") ∧
     refresh_aggregate [⟨"a", some ("acct"), none, none⟩]
        [(("acct"), .failed ⟨.error, "boom"⟩)] =
       .error ("1 profile(s) failed (0 need login): a")) :=
  ⟨(C8_aggregation [⟨"a", some ("acct"), none, none⟩] []).1.mpr rfl,
   (C8_aggregation [⟨"a", some ("acct"), none, none⟩]
      [(("acct"), .failed ⟨.needsLogin, "invalid_grant"⟩)]).2.1 (by decide)
      (by
        intro p hp aid f hcid hl
        simp only [List.mem_singleton] at hp
        subst hp
        injection hcid with haid
        subst haid
        simp only [mapLookup, if_pos rfl, Option.some_inj] at hl
        cases hl
        rfl),
   (C8_aggregation [⟨"a", some ("acct"), none, none⟩]
      [(("acct"), .failed ⟨.error, "boom"⟩)]).2.2
      ⟨⟨"a", some ("acct"), none, none⟩, by simp, ("acct"), ⟨.error, "boom"⟩, rfl, rfl, rfl⟩⟩

theorem mapLookup_mapInsert {α : Type} (m : List (String × α)) (k : String) (v : α)
    (c : String) :
    mapLookup (mapInsert m k v) c = if k = c then some v else mapLookup m c := by
  induction m with
  | nil => simp [mapInsert, mapLookup]
  | cons hd tl ih =>
      obtain ⟨k2, v2⟩ := hd
      simp only [mapInsert]
      by_cases h2 : k2 = k
      · subst h2
        rw [if_pos rfl]
        simp only [mapLookup]
        by_cases h3 : k2 = c
        · simp [h3]
        · simp [h3]
      · rw [if_neg h2]
        simp only [mapLookup]
        by_cases h3 : k2 = c
        · rw [if_pos h3, if_pos h3, if_neg (fun h => h2 (h.trans h3.symm).symm)]
        · rw [if_neg h3, if_neg h3, ih]

theorem readFile_writeFile (fs : FS) (p v : String) :
    readFile (writeFile fs p v) p = some v := by
  induction fs with
  | nil => simp [writeFile, readFile]
  | cons hd tl ih =>
      obtain ⟨p2, c2⟩ := hd
      by_cases h2 : p2 = p
      · subst h2
        simp [writeFile, readFile]
      · simp only [writeFile, readFile, if_neg h2]
        exact ih

theorem refresh_calls_none (env : RefreshEnv) (d : String)
    (h : (parse_claude_credentials d).refresh_token = none) :
    (refresh_claude_credentials_always env d).2 = [] := by
  unfold refresh_claude_credentials_always
  simp only [h]

theorem refresh_calls_some (env : RefreshEnv) (d rt : String)
    (h : (parse_claude_credentials d).refresh_token = some rt) :
    (refresh_claude_credentials_always env d).2 = [short_hash_hex rt] := by
  unfold refresh_claude_credentials_always
  simp only [h]
  cases env.client rt (if (parse_claude_credentials d).scopes.isEmpty
      then CLAUDE_DEFAULT_SCOPE else String.intercalate (" ") (parse_claude_credentials d).scopes) with
  | error e => rfl
  | ok payload => rfl

theorem lock_id_of_token (d fb rt : String)
    (h : (parse_claude_credentials d).refresh_token = some rt) :
    resolve_refresh_lock_id d fb = short_hash_hex rt := by
  unfold resolve_refresh_lock_id
  simp only [h]

theorem applyRefreshed_fields (active : Option String) (accid path data : String)
    (st : RunState) :
    (applyRefreshedCredentials active accid path data st).calls = st.calls ∧
    (applyRefreshedCredentials active accid path data st).byLock = st.byLock ∧
    (applyRefreshedCredentials active accid path data st).byAccount = st.byAccount ∧
    (applyRefreshedCredentials active accid path data st).touched = st.touched ∧
    (applyRefreshedCredentials active accid path data st).fs = writeFile st.fs path data := by
  unfold applyRefreshedCredentials
  by_cases h : active = some accid
  · rw [if_pos h]
    exact ⟨rfl, rfl, rfl, rfl, rfl⟩
  · rw [if_neg h]
    exact ⟨rfl, rfl, rfl, rfl, rfl⟩

set_option maxHeartbeats 1000000

theorem applyRefreshed_calls (active : Option String) (accid path data : String)
    (st : RunState) :
    (applyRefreshedCredentials active accid path data st).calls = st.calls := by
  unfold applyRefreshedCredentials
  by_cases h : active = some accid
  · rw [if_pos h]
  · rw [if_neg h]

theorem applyRefreshed_byLock (active : Option String) (accid path data : String)
    (st : RunState) :
    (applyRefreshedCredentials active accid path data st).byLock = st.byLock := by
  unfold applyRefreshedCredentials
  by_cases h : active = some accid
  · rw [if_pos h]
  · rw [if_neg h]

theorem applyRefreshed_touched (active : Option String) (accid path data : String)
    (st : RunState) :
    (applyRefreshedCredentials active accid path data st).touched = st.touched := by
  unfold applyRefreshedCredentials
  by_cases h : active = some accid
  · rw [if_pos h]
  · rw [if_neg h]

theorem applyRefreshed_fs (active : Option String) (accid path data : String)
    (st : RunState) :
    (applyRefreshedCredentials active accid path data st).fs = writeFile st.fs path data := by
  unfold applyRefreshedCredentials
  by_cases h : active = some accid
  · rw [if_pos h]
  · rw [if_neg h]

theorem refresh_calls_cop (env : RefreshEnv) (d fb : String) :
    (refresh_claude_credentials_always env d).2 = [] ∨
    (refresh_claude_credentials_always env d).2 = [resolve_refresh_lock_id d fb] := by
  cases hrt : (parse_claude_credentials d).refresh_token with
  | none => exact Or.inl (refresh_calls_none env d hrt)
  | some rt =>
      exact Or.inr ((refresh_calls_some env d rt hrt).trans
        (by rw [lock_id_of_token d fb rt hrt]))

theorem refreshStep_shape (env : RefreshEnv) (active : Option String)
    (accounts : List UsageAccount) (st : RunState) (profile : UsageProfile) :
    ((refreshStep env active accounts st profile).calls = st.calls ∧
     (refreshStep env active accounts st profile).byLock = st.byLock) ∨
    (∃ lock_id called outcome,
      mapLookup st.byLock lock_id = none ∧
      (called = [] ∨ called = [lock_id]) ∧
      (refreshStep env active accounts st profile).calls = st.calls ++ called ∧
      (refreshStep env active accounts st profile).byLock =
        mapInsert st.byLock lock_id outcome) := by
  unfold refreshStep
  dsimp only
  split
  · exact Or.inl ⟨rfl, rfl⟩
  · rename_i account_id hcid
    split
    · exact Or.inl ⟨rfl, rfl⟩
    · rename_i account hacct
      split
      · exact Or.inl ⟨rfl, rfl⟩
      · split
        · exact Or.inl ⟨rfl, rfl⟩
        · split
          · exact Or.inl ⟨rfl, rfl⟩
          · rename_i current_data hread
            split
            · split
              · exact Or.inl ⟨(applyRefreshed_calls _ _ _ _ _).trans rfl,
                  (applyRefreshed_byLock _ _ _ _ _).trans rfl⟩
              · exact Or.inl ⟨rfl, rfl⟩
            · rename_i hlk
              split
              · rename_i refreshed_data heq
                refine Or.inr ⟨resolve_refresh_lock_id current_data account_id,
                  (refresh_claude_credentials_always env current_data).2,
                  .success refreshed_data, hlk,
                  refresh_calls_cop env current_data account_id,
                  (applyRefreshed_calls _ _ _ _ _).trans rfl, ?_⟩
                rw [applyRefreshed_byLock]
              · rename_i message hem
                exact Or.inr ⟨resolve_refresh_lock_id current_data account_id,
                  (refresh_claude_credentials_always env current_data).2,
                  .failed (classify_refresh_failure message), hlk,
                  refresh_calls_cop env current_data account_id, rfl, rfl⟩

theorem refreshStep_inv (env : RefreshEnv) (active : Option String)
    (accounts : List UsageAccount) (st : RunState) (profile : UsageProfile)
    (h1 : st.calls.Nodup)
    (h2 : ∀ c ∈ st.calls, (mapLookup st.byLock c).isSome = true) :
    (refreshStep env active accounts st profile).calls.Nodup ∧
    ∀ c ∈ (refreshStep env active accounts st profile).calls,
      (mapLookup (refreshStep env active accounts st profile).byLock c).isSome = true := by
  rcases refreshStep_shape env active accounts st profile with
    ⟨hc, hb⟩ | ⟨lid, called, outcome, hlk, hcop, hc, hb⟩
  · rw [hc, hb]
    exact ⟨h1, h2⟩
  · rw [hc, hb]
    rcases hcop with rfl | rfl
    · simp only [List.append_nil]
      refine ⟨h1, fun c hcmem => ?_⟩
      rw [mapLookup_mapInsert]
      by_cases hck : lid = c
      · simp [hck]
      · rw [if_neg hck]
        exact h2 c hcmem
    · have hnotin : lid ∉ st.calls := by
        intro hmem
        have hsome := h2 lid hmem
        rw [hlk] at hsome
        simp at hsome
      constructor
      · rw [List.nodup_append]
        exact ⟨h1, List.nodup_singleton lid,
          fun a ha hain => hnotin ((List.mem_singleton.mp hain) ▸ ha)⟩
      · intro c hcmem
        rw [mapLookup_mapInsert]
        by_cases hck : lid = c
        · simp [hck]
        · rw [if_neg hck]
          have hcold : c ∈ st.calls := by
            rcases List.mem_append.mp hcmem with h | h
            · exact h
            · exact absurd (List.mem_singleton.mp h) (fun e => hck e.symm)
          exact h2 c hcold

theorem refreshWalk_inv (env : RefreshEnv) (active : Option String)
    (accounts : List UsageAccount) :
    ∀ (profiles : List UsageProfile) (st : RunState),
      st.calls.Nodup → (∀ c ∈ st.calls, (mapLookup st.byLock c).isSome = true) →
      (refreshWalk env active accounts profiles st).calls.Nodup := by
  intro profiles
  induction profiles with
  | nil => exact fun st h1 _ => h1
  | cons p rest ih =>
      intro st h1 h2
      have hstep := refreshStep_inv env active accounts st p h1 h2
      exact ih (refreshStep env active accounts st p) hstep.1 hstep.2

/-- Claim C3: refresh deduplication.  Over a whole `refresh_all` walk the
OAuth client is invoked at most once per distinct refresh-token
fingerprint (the instrumented call list has no duplicates), and a step
whose lock id already carries a success outcome writes the earlier
refreshed bytes into the account's stored credential file, marks the
account touched, and performs no additional OAuth call. -/
theorem C3_refresh_dedupe :
    (∀ env active accounts profiles fs kc af,
      (refresh_all_walk env active accounts profiles fs kc af).calls.Nodup) ∧
    (∀ env active accounts (st : RunState) profile account_id account current_data bytes,
      profile.claude_account_id = some account_id →
      accountById accounts account_id = some account →
      account.service = UsageService.claude →
      mapLookup st.byAccount account_id = none →
      readFile st.fs (credentialPath account) = some current_data →
      mapLookup st.byLock (resolve_refresh_lock_id current_data account_id) =
        some (.success bytes) →
      readFile (refreshStep env active accounts st profile).fs (credentialPath account) =
        some bytes ∧
      account_id ∈ (refreshStep env active accounts st profile).touched ∧
      (refreshStep env active accounts st profile).calls = st.calls) := by
  constructor
  · intro env active accounts profiles fs kc af
    exact refreshWalk_inv env active accounts profiles ⟨fs, kc, af, [], [], [], []⟩
      List.nodup_nil (fun c hc => absurd hc (List.not_mem_nil c))
  · intro env active accounts st profile account_id account current_data bytes
      hcid hacct hserv hbya hread hlk
    unfold refreshStep
    dsimp only
    simp only [hcid, hacct, hserv, hbya, hread, hlk, ne_eq, not_true_eq_false,
      if_false, Option.isSome_none, Bool.false_eq_true, reduceIte]
    refine ⟨?_, ?_, ?_⟩
    · rw [applyRefreshed_fs]
      exact readFile_writeFile st.fs (credentialPath account) bytes
    · exact List.mem_cons_self account_id _
    · exact applyRefreshed_calls _ _ _ _ _

/-- Witness for C3: the empty walk makes no duplicate calls, and a concrete
reuse step copies the earlier bytes, marks the account touched, and calls
no client. -/
theorem C3_witness :
    (refresh_all_walk ⟨fun _ _ => .error (""), 0⟩ none [] [] [] none none).calls.Nodup ∧
    (readFile (refreshStep ⟨fun _ _ => .error (""), 0⟩ none
        [⟨"acct", UsageService.claude, "l", "root", "ts"⟩]
        ⟨[("root/.claude/.credentials.json", "\x7b\x7d")], none, none, [],
          [("acct", .success ("NEW"))], [], []⟩
        ⟨"p", some ("acct"), none, none⟩).fs
        (credentialPath ⟨"acct", UsageService.claude, "l", "root", "ts"⟩) = some ("NEW") ∧
      "acct" ∈ (refreshStep ⟨fun _ _ => .error (""), 0⟩ none
        [⟨"acct", UsageService.claude, "l", "root", "ts"⟩]
        ⟨[("root/.claude/.credentials.json", "\x7b\x7d")], none, none, [],
          [("acct", .success ("NEW"))], [], []⟩
        ⟨"p", some ("acct"), none, none⟩).touched ∧
      (refreshStep ⟨fun _ _ => .error (""), 0⟩ none
        [⟨"acct", UsageService.claude, "l", "root", "ts"⟩]
        ⟨[("root/.claude/.credentials.json", "\x7b\x7d")], none, none, [],
          [("acct", .success ("NEW"))], [], []⟩
        ⟨"p", some ("acct"), none, none⟩).calls = []) :=
  ⟨C3_refresh_dedupe.1 ⟨fun _ _ => .error (""), 0⟩ none [] [] [] none none,
   C3_refresh_dedupe.2 ⟨fun _ _ => .error (""), 0⟩ none
     [⟨"acct", UsageService.claude, "l", "root", "ts"⟩]
     ⟨[("root/.claude/.credentials.json", "\x7b\x7d")], none, none, [],
       [("acct", .success ("NEW"))], [], []⟩
     ⟨"p", some ("acct"), none, none⟩ ("acct")
     ⟨"acct", UsageService.claude, "l", "root", "ts"⟩ ("\x7b\x7d") ("NEW")
     rfl rfl rfl rfl rfl rfl⟩

theorem char_toNat_ofNat_valid (n : Nat) (h : n.isValidChar) : (Char.ofNat n).toNat = n := by
  rw [Char.ofNat, dif_pos h]
  simp [Char.ofNatAux, Char.toNat, UInt32.toNat, BitVec.toNat_ofNatLt]

theorem toLower_idem (c : Char) : c.toLower.toLower = c.toLower := by
  unfold Char.toLower
  dsimp only
  by_cases h : c.toNat ≥ 65 ∧ c.toNat ≤ 90
  · rw [if_pos h]
    have hval : (c.toNat + 32).isValidChar := Or.inl (by omega)
    rw [if_neg (by rw [char_toNat_ofNat_valid _ hval]; omega)]
  · rw [if_neg h, if_neg h]

theorem toLowerStr_idem (s : String) : toLowerStr (toLowerStr s) = toLowerStr s := by
  unfold toLowerStr
  simp only [List.map_map]
  congr 1
  exact List.map_congr_left (fun c _ => toLower_idem c)

theorem bind_normalize_lower (x : Option String) (e : String)
    (h : x.bind normalize_email = some e) : toLowerStr e = e := by
  cases x with
  | none => cases h
  | some v =>
      simp only [Option.some_bind] at h
      unfold normalize_email at h
      dsimp only at h
      split at h
      · cases h
      · cases h
        exact toLowerStr_idem (trimStr v)

theorem extract_email_lower (root : Json) (e : String)
    (h : extract_claude_email root = some e) : toLowerStr e = e := by
  unfold extract_claude_email at h
  simp only [List.firstM] at h
  cases h1 : (get_path_string root [("email")]).bind normalize_email with
  | some v =>
      rw [h1] at h
      simp only [Option.some_orElse] at h
      cases h
      exact bind_normalize_lower _ _ h1
  | none =>
      rw [h1] at h
      simp only [Option.none_orElse] at h
      cases h2 : (get_path_string root [("account"), ("email")]).bind normalize_email with
      | some v =>
          rw [h2] at h
          simp only [Option.some_orElse] at h
          cases h
          exact bind_normalize_lower _ _ h2
      | none =>
          rw [h2] at h
          simp only [Option.none_orElse] at h
          cases h3 : (get_path_string root [("claudeAiOauth"), ("email")]).bind normalize_email with
          | some v =>
              rw [h3] at h
              simp only [Option.some_orElse] at h
              cases h
              exact bind_normalize_lower _ _ h3
          | none =>
              rw [h3] at h
              simp only [Option.none_orElse] at h
              cases h4 : (get_path_string root
                  [("claudeAiOauth"), ("account"), ("email")]).bind normalize_email with
              | some v =>
                  rw [h4] at h
                  simp only [Option.some_orElse] at h
                  cases h
                  exact bind_normalize_lower _ _ h4
              | none =>
                  rw [h4] at h
                  simp only [Option.none_orElse] at h
                  exact bind_normalize_lower _ _ h

theorem alnum_ne_underscore (c : Char) (h : c.isAlphanum = true) : ¬(c = '_') := by
  intro he
  subst he
  simp at h

theorem slugAux_alnum_append (l : List Char) (rest : List Char) (b : Bool) (hne : l ≠ [])
    (halnum : ∀ c ∈ l, c.isAlphanum = true) :
    slugAux (l ++ rest) b = l ++ slugAux rest false := by
  induction l generalizing b with
  | nil => exact absurd rfl hne
  | cons c tl ih =>
      simp only [List.cons_append, slugAux, halnum c (by simp), if_true]
      cases tl with
      | nil => simp
      | cons d tl2 =>
          exact congrArg (fun l => c :: l) (ih false (by simp)
            (fun x hx => halnum x (by simp [hx])))

theorem slugAux_dotJoin (parts : List (List Char)) (b : Bool) (hne : parts ≠ [])
    (hall : ∀ p ∈ parts, p ≠ [] ∧ ∀ c ∈ p, c.isAlphanum = true) :
    slugAux (dotJoin parts) b = usJoin parts := by
  induction parts generalizing b with
  | nil => exact absurd rfl hne
  | cons p ps ih =>
      obtain ⟨hp1, hp2⟩ := hall p (by simp)
      cases ps with
      | nil =>
          show slugAux (dotJoin [p]) b = usJoin [p]
          rw [show dotJoin [p] = p ++ [] by simp [dotJoin],
            slugAux_alnum_append p [] b hp1 hp2]
          simp [usJoin, slugAux]
      | cons q ps2 =>
          rw [show dotJoin (p :: q :: ps2) = p ++ '.' :: dotJoin (q :: ps2) from rfl,
            slugAux_alnum_append p _ b hp1 hp2]
          show p ++ ('_' :: slugAux (dotJoin (q :: ps2)) true) = usJoin (p :: q :: ps2)
          rw [ih true (by simp) (fun x hx => hall x (by simp [hx]))]
          rfl

theorem trimMatches_eq_self (l : List Char) (ch c d : Char) (l1 : List Char)
    (hshape : l = c :: l1) (hc : ¬(c = ch)) (hlast : l.getLast? = some d) (hd : ¬(d = ch)) :
    trimMatches l ch = l := by
  unfold trimMatches
  have hstep1 : l.dropWhile (fun x => x = ch) = l := by
    rw [hshape, List.dropWhile_cons]
    simp [hc]
  rw [hstep1]
  cases hrev : l.reverse with
  | nil =>
      rw [hshape] at hrev
      simp at hrev
  | cons d2 t =>
      have hd2 : d2 = d := by
        have : l.getLast? = some d2 := by
          rw [← List.head?_reverse, hrev]
          rfl
        rw [this] at hlast
        exact Option.some_inj.mp hlast
      subst hd2
      rw [List.dropWhile_cons, if_neg (by simp [hd])]
      rw [← hrev, List.reverse_reverse]

theorem usJoin_ne_nil (parts : List (List Char)) (h1 : parts ≠ [])
    (h2 : ∀ p ∈ parts, p ≠ []) : usJoin parts ≠ [] := by
  cases parts with
  | nil => exact absurd rfl h1
  | cons p ps =>
      cases ps with
      | nil => exact h2 p (by simp)
      | cons q ps2 =>
          show p ++ '_' :: usJoin (q :: ps2) ≠ []
          simp

theorem usJoin_last_alnum (parts : List (List Char)) (h1 : parts ≠ [])
    (h2 : ∀ p ∈ parts, p ≠ [] ∧ ∀ c ∈ p, c.isAlphanum = true) :
    ∃ d, (usJoin parts).getLast? = some d ∧ d.isAlphanum = true := by
  induction parts with
  | nil => exact absurd rfl h1
  | cons p ps ih =>
      cases ps with
      | nil =>
          obtain ⟨hp1, hp2⟩ := h2 p (by simp)
          exact ⟨p.getLast hp1, Option.mem_def.mp (List.getLast_mem_getLast? hp1),
            hp2 _ (List.getLast_mem hp1)⟩
      | cons q ps2 =>
          obtain ⟨d, hd1, hd2⟩ := ih (by simp) (fun x hx => h2 x (by simp [hx]))
          refine ⟨d, ?_, hd2⟩
          show (p ++ '_' :: usJoin (q :: ps2)).getLast? = some d
          rw [List.getLast?_append_of_ne_nil p (by simp)]
          have hne := usJoin_ne_nil (q :: ps2) (by simp)
            (fun x hx => (h2 x (by simp [hx])).1)
          rw [show ('_' :: usJoin (q :: ps2)) = ['_'] ++ usJoin (q :: ps2) from rfl,
            List.getLast?_append_of_ne_nil ['_'] hne]
          exact hd1

theorem email_slug_structure (e : String) (lo : List Char) (parts : List (List Char))
    (htl : toLowerStr e = e)
    (hdata : e.data = lo ++ '@' :: dotJoin parts)
    (hlo1 : lo ≠ []) (hlo2 : ∀ c ∈ lo, c.isAlphanum = true)
    (hps1 : parts ≠ []) (hps2 : ∀ p ∈ parts, p ≠ [] ∧ ∀ c ∈ p, c.isAlphanum = true) :
    email_slug e = some (String.mk (lo ++ '_' :: usJoin parts)) := by
  unfold email_slug
  dsimp only
  rw [htl, hdata]
  rw [slugAux_alnum_append lo _ false hlo1 hlo2]
  rw [show slugAux ('@' :: dotJoin parts) false = '_' :: slugAux (dotJoin parts) true from rfl]
  rw [slugAux_dotJoin parts true hps1 hps2]
  obtain ⟨c, lo1, rfl⟩ : ∃ c lo1, lo = c :: lo1 := by
    cases lo with
    | nil => exact absurd rfl hlo1
    | cons c lo1 => exact ⟨c, lo1, rfl⟩
  obtain ⟨d, hd1, hd2⟩ := usJoin_last_alnum parts hps1 hps2
  have hlastfull : ((c :: lo1) ++ '_' :: usJoin parts).getLast? = some d := by
    rw [List.getLast?_append_of_ne_nil _ (by simp),
      show ('_' :: usJoin parts) = ['_'] ++ usJoin parts from rfl,
      List.getLast?_append_of_ne_nil ['_']
        (usJoin_ne_nil parts hps1 (fun x hx => (hps2 x hx).1))]
    exact hd1
  rw [trimMatches_eq_self ((c :: lo1) ++ '_' :: usJoin parts) '_' c d
    (lo1 ++ '_' :: usJoin parts) (by simp)
    (alnum_ne_underscore c (hlo2 c (by simp))) hlastfull (alnum_ne_underscore d hd2)]
  rfl

theorem mk_ne_nil_isEmpty_false (l : List Char) (h : l ≠ []) :
    (String.mk l).isEmpty = false := by
  cases l with
  | nil => exact absurd rfl h
  | cons c cs =>
      rw [Bool.eq_false_iff]
      intro hempty
      have hmk := (String.isEmpty_iff (String.mk (c :: cs))).mp hempty
      exact absurd (congrArg String.data hmk) (by simp)

theorem listIsPre_append_self (a b : List Char) : listIsPre a (a ++ b) = true := by
  induction a with
  | nil => rfl
  | cons c tl ih => simp [listIsPre, ih]

theorem stripPre_append (p s : String) : stripPre (p ++ s) p = some s := by
  unfold stripPre
  rw [String.data_append, if_pos (by rw [listIsPre_append_self])]
  rw [List.drop_left]

theorem listIsPre_append_cancel (a x y : List Char) :
    listIsPre (a ++ x) (a ++ y) = listIsPre x y := by
  induction a with
  | nil => rfl
  | cons c tl ih => simp [listIsPre, ih]

theorem pre_underscore_eq (w : List Char) : ∀ (lo rest : List Char),
    (∀ c ∈ w, ¬(c = '_')) → (∀ c ∈ lo, ¬(c = '_')) →
    listIsPre (w ++ ['_']) (lo ++ '_' :: rest) = true → lo = w := by
  induction w with
  | nil =>
      intro lo rest _ hlo h
      cases lo with
      | nil => rfl
      | cons c lo1 =>
          simp only [List.nil_append, List.cons_append, listIsPre, Bool.and_eq_true,
            decide_eq_true_eq] at h
          exact absurd h.1.symm (hlo c (by simp))
  | cons a w1 ih =>
      intro lo rest hw hlo h
      cases lo with
      | nil =>
          simp only [List.cons_append, List.nil_append, listIsPre, Bool.and_eq_true,
            decide_eq_true_eq] at h
          exact absurd h.1 (hw a (by simp))
      | cons c lo1 =>
          simp only [List.cons_append, listIsPre, Bool.and_eq_true, decide_eq_true_eq] at h
          have := ih lo1 rest (fun x hx => hw x (by simp [hx]))
            (fun x hx => hlo x (by simp [hx])) h.2
          rw [this, h.1]

theorem splitOnceAux_structure (lo : List Char) (rest : List Char)
    (hlo : ∀ c ∈ lo, ¬(c = '_')) :
    splitOnceCharAux '_' (lo ++ '_' :: rest) = some (lo, rest) := by
  induction lo with
  | nil => simp [splitOnceCharAux]
  | cons c lo1 ih =>
      simp only [List.cons_append, splitOnceCharAux]
      rw [if_neg (hlo c (by simp)), List.append_eq, ih (fun x hx => hlo x (by simp [hx]))]

theorem map_us_to_dot (parts : List (List Char))
    (h : ∀ p ∈ parts, ∀ c ∈ p, c.isAlphanum = true) :
    (usJoin parts).map (fun c => if c = '_' then '.' else c) = dotJoin parts := by
  induction parts with
  | nil => rfl
  | cons p ps ih =>
      have hmap : p.map (fun c => if c = '_' then '.' else c) = p := by
        rw [List.map_congr_left (fun c hc => if_neg (alnum_ne_underscore c (h p (by simp) c hc)))]
        exact List.map_id p
      cases ps with
      | nil => exact hmap
      | cons q ps2 =>
          show (p ++ '_' :: usJoin (q :: ps2)).map (fun c => if c = '_' then '.' else c) =
            p ++ '.' :: dotJoin (q :: ps2)
          rw [List.map_append, hmap, List.map_cons, if_pos rfl,
            ih (fun x hx => h x (by simp [hx]))]

theorem dotJoin_ne_nil (parts : List (List Char)) (h1 : parts ≠ [])
    (h2 : ∀ p ∈ parts, p ≠ []) : dotJoin parts ≠ [] := by
  cases parts with
  | nil => exact absurd rfl h1
  | cons p ps =>
      cases ps with
      | nil => exact h2 p (by simp)
      | cons q ps2 =>
          show p ++ '.' :: dotJoin (q :: ps2) ≠ []
          simp

theorem email_from_after_strip (sl : String) (lo : List Char) (parts : List (List Char))
    (hsl : sl.data = lo ++ '_' :: usJoin parts)
    (hlo1 : lo ≠ []) (hlo2 : ∀ c ∈ lo, c.isAlphanum = true)
    (hps1 : parts ≠ []) (hps2 : ∀ p ∈ parts, p ≠ [] ∧ ∀ c ∈ p, c.isAlphanum = true) :
    splitOnceChar sl '_' = some (String.mk lo, String.mk (usJoin parts)) ∧
    ¬((String.mk lo).isEmpty = true ∨ (String.mk (usJoin parts)).isEmpty = true) ∧
    replaceChar (String.mk (usJoin parts)) '_' '.' = String.mk (dotJoin parts) ∧
    ¬((String.mk (dotJoin parts)).isEmpty = true) ∧
    String.mk lo ++ "@" ++ String.mk (dotJoin parts) = String.mk (lo ++ '@' :: dotJoin parts) := by
  refine ⟨?_, ?_, ?_, ?_, ?_⟩
  · unfold splitOnceChar
    rw [hsl, splitOnceAux_structure lo _ (fun c hc => alnum_ne_underscore c (hlo2 c hc))]
  · rw [mk_ne_nil_isEmpty_false lo hlo1,
      mk_ne_nil_isEmpty_false _ (usJoin_ne_nil parts hps1 (fun p hp => (hps2 p hp).1))]
    simp
  · exact congrArg String.mk (map_us_to_dot parts (fun p hp => (hps2 p hp).2))
  · rw [mk_ne_nil_isEmpty_false _ (dotJoin_ne_nil parts hps1 (fun p hp => (hps2 p hp).1))]
    simp
  · exact congrArg String.mk (by simp)

theorem email_from_account_id_team (sl : String) (lo : List Char) (parts : List (List Char))
    (hsl : sl.data = lo ++ '_' :: usJoin parts)
    (hlo1 : lo ≠ []) (hlo2 : ∀ c ∈ lo, c.isAlphanum = true)
    (hps1 : parts ≠ []) (hps2 : ∀ p ∈ parts, p ≠ [] ∧ ∀ c ∈ p, c.isAlphanum = true) :
    email_from_account_id ("acct_claude_team_" ++ sl) =
      some (String.mk (lo ++ '@' :: dotJoin parts)) := by
  obtain ⟨hsplit, hne1, hrep, hne2, happ⟩ :=
    email_from_after_strip sl lo parts hsl hlo1 hlo2 hps1 hps2
  unfold email_from_account_id
  rw [stripPre_append ("acct_claude_team_") sl]
  try dsimp only
  rw [hsplit]
  try dsimp only
  rw [if_neg hne1]
  try dsimp only
  rw [hrep, if_neg hne2, happ]

theorem email_from_account_id_plain (sl : String) (lo : List Char) (parts : List (List Char))
    (hsl : sl.data = lo ++ '_' :: usJoin parts)
    (hlo1 : lo ≠ []) (hlo2 : ∀ c ∈ lo, c.isAlphanum = true)
    (hps1 : parts ≠ []) (hps2 : ∀ p ∈ parts, p ≠ [] ∧ ∀ c ∈ p, c.isAlphanum = true)
    (hteam : lo ≠ ['t', 'e', 'a', 'm']) :
    email_from_account_id ("acct_claude_" ++ sl) =
      some (String.mk (lo ++ '@' :: dotJoin parts)) := by
  obtain ⟨hsplit, hne1, hrep, hne2, happ⟩ :=
    email_from_after_strip sl lo parts hsl hlo1 hlo2 hps1 hps2
  have hstrip1 : stripPre ("acct_claude_" ++ sl) ("acct_claude_team_") = none := by
    unfold stripPre
    rw [if_neg ?hfalse]
    case hfalse =>
      intro hcontra
      rw [String.data_append] at hcontra
      rw [show ("acct_claude_team_" : String).data =
        ("acct_claude_" : String).data ++ ('t' :: 'e' :: 'a' :: 'm' :: '_' :: []) from rfl]
        at hcontra
      rw [listIsPre_append_cancel] at hcontra
      rw [hsl] at hcontra
      rw [show ('t' :: 'e' :: 'a' :: 'm' :: '_' :: []) =
        ['t', 'e', 'a', 'm'] ++ ['_'] from rfl] at hcontra
      exact hteam (pre_underscore_eq ['t', 'e', 'a', 'm'] lo (usJoin parts) (by decide)
        (fun c hc => alnum_ne_underscore c (hlo2 c hc)) hcontra)
  unfold email_from_account_id
  rw [hstrip1, stripPre_append ("acct_claude_") sl]
  try dsimp only
  rw [hsplit]
  try dsimp only
  rw [if_neg hne1]
  try dsimp only
  rw [hrep, if_neg hne2, happ]

theorem resolve_account_id_email (data e slugStr : String)
    (he : extract_claude_email (parse_claude_credentials data).root = some e)
    (hslug : email_slug e = some slugStr) :
    resolve_claude_account_id data =
      (if resolve_claude_is_team (parse_claude_credentials data).root = some true
        then "acct_claude_team_" ++ slugStr else "acct_claude_" ++ slugStr) := by
  unfold resolve_claude_account_id
  dsimp only
  rw [he]
  simp only [Option.some_bind, hslug]
  rfl

/-- Claim C4 (amended): the account-id/email round-trip holds for every
extractable email whose lowercased form is an alphanumeric local part, an
`@`, and dot-separated alphanumeric domain labels — except that when the
team flag is not set the local part must not be exactly `team` (otherwise
the derived id collides with the team prefix and the inverse mis-parses).
With the team flag set the round-trip holds unconditionally. -/
theorem C4_amended (data e : String) (lo : List Char) (parts : List (List Char))
    (he : extract_claude_email (parse_claude_credentials data).root = some e)
    (hdata : e.data = lo ++ '@' :: dotJoin parts)
    (hlo1 : lo ≠ []) (hlo2 : ∀ c ∈ lo, c.isAlphanum = true)
    (hps1 : parts ≠ []) (hps2 : ∀ p ∈ parts, p ≠ [] ∧ ∀ c ∈ p, c.isAlphanum = true)
    (hteam : resolve_claude_is_team (parse_claude_credentials data).root = some true ∨
      lo ≠ ['t', 'e', 'a', 'm']) :
    email_from_account_id (resolve_claude_account_id data) = some e := by
  have htl := extract_email_lower _ _ he
  have hslug := email_slug_structure e lo parts htl hdata hlo1 hlo2 hps1 hps2
  rw [resolve_account_id_email data e _ he hslug]
  have hmkdata : (String.mk (lo ++ '_' :: usJoin parts)).data = lo ++ '_' :: usJoin parts := rfl
  have hee : String.mk (lo ++ '@' :: dotJoin parts) = e := by
    rw [← hdata]
  by_cases ht : resolve_claude_is_team (parse_claude_credentials data).root = some true
  · rw [if_pos ht, email_from_account_id_team _ lo parts hmkdata hlo1 hlo2 hps1 hps2, hee]
  · rw [if_neg ht, email_from_account_id_plain _ lo parts hmkdata hlo1 hlo2 hps1 hps2
      (hteam.resolve_left ht), hee]

/-- Claim C4 counterexample: `team@x.com` with no team flag satisfies the
claim's no-underscore-ambiguity condition, yet its derived id
`acct_claude_team_x_com` inverts to `x@com`, not `team@x.com`. -/
theorem C4_counterexample :
    extract_claude_email
      (parse_claude_credentials ("\x7b\"email\":\"team@x.com\"\x7d")).root = some ("team@x.com") ∧
    email_from_account_id
      (resolve_claude_account_id ("\x7b\"email\":\"team@x.com\"\x7d")) = some ("x@com") ∧
    ¬ email_from_account_id
      (resolve_claude_account_id ("\x7b\"email\":\"team@x.com\"\x7d")) = some ("team@x.com") := by
  refine ⟨rfl, rfl, by decide⟩

/-- Witness for C4: the round-trip at `ab@cd.ef`, with and without the
team flag. -/
theorem C4_witness :
    email_from_account_id (resolve_claude_account_id
      ("\x7b\"email\":\"ab@cd.ef\"\x7d")) = some ("ab@cd.ef") ∧
    email_from_account_id (resolve_claude_account_id
      ("\x7b\"email\":\"ab@cd.ef\",\"isTeam\":true\x7d")) = some ("ab@cd.ef") :=
  ⟨C4_amended ("\x7b\"email\":\"ab@cd.ef\"\x7d") ("ab@cd.ef")
      ['a', 'b'] [['c', 'd'], ['e', 'f']] rfl rfl (by simp) (by decide) (by simp) (by decide)
      (Or.inr (by decide)),
   C4_amended ("\x7b\"email\":\"ab@cd.ef\",\"isTeam\":true\x7d") ("ab@cd.ef")
      ['a', 'b'] [['c', 'd'], ['e', 'f']] rfl rfl (by simp) (by decide) (by simp) (by decide)
      (Or.inl rfl)⟩
